import Mathlib

/-!
Verification of the Minneapolis 1900 city-directory OCR text-to-record
pipeline.  The Python sources `src/ocr/text_cleaner.py`,
`src/parsing/text_analyzer.py`, `src/parsing/entry_extractor.py` and
`src/parsing/json_parser.py` (plus the tables in `config/settings.py`)
are embedded shallowly: strings are `List Char`, Python dicts of fixed
shape become structures, the regular expressions used by the code are
transcribed into a small pattern datatype executed by a backtracking
matcher with Python `re` semantics (leftmost match, ordered alternation,
greedy quantifiers), and the mutable parser state becomes an explicit
state value threaded through the functions.  Character classification
(`isupper`, `isdigit`, whitespace, `\b`, `IGNORECASE`) is modelled at
the ASCII level, which is faithful for the directory text the pipeline
processes.
-/

set_option maxRecDepth 2000000
set_option maxHeartbeats 4000000

namespace Dir1900

/-- Strings are modelled as lists of characters. -/
abbrev Str := List Char

/-- Coerce a Lean string literal into the model. -/
def strL (s : String) : Str := s.data

/-- Python `str.isspace` / whitespace used by `strip()` and `split()`,
at the ASCII level. -/
def pyIsSpace (c : Char) : Bool :=
  c = ' ' ∨ c = '\t' ∨ c = '\n' ∨ c = '\x0d' ∨ c = '\x0b' ∨ c = '\x0c'

/-- The apostrophe character (written via its code point to keep the
source free of quote-escape sequences). -/
def apos : Char := Char.ofNat 39

/-- The apostrophe as a one-character string. -/
def aposS : Str := [apos]

/-- ASCII lower-casing, as `str.lower()` acts on ASCII text. -/
def lowerA (c : Char) : Char :=
  if 'A' ≤ c ∧ c ≤ 'Z' then Char.ofNat (c.toNat + 32) else c

/-- ASCII upper-casing. -/
def upperA (c : Char) : Char :=
  if 'a' ≤ c ∧ c ≤ 'z' then Char.ofNat (c.toNat - 32) else c

def isUpperA (c : Char) : Bool := 'A' ≤ c ∧ c ≤ 'Z'
def isLowerA (c : Char) : Bool := 'a' ≤ c ∧ c ≤ 'z'
def isDigitA (c : Char) : Bool := '0' ≤ c ∧ c ≤ '9'
def isAlphaA (c : Char) : Bool := isUpperA c ∨ isLowerA c
def isAlnumA (c : Char) : Bool := isAlphaA c ∨ isDigitA c

/-- `str.lower()` on a whole string. -/
def pyLower (s : Str) : Str := s.map lowerA

/-- `word.isalpha()`: nonempty and all alphabetic. -/
def pyIsAlphaStr (s : Str) : Bool := s ≠ [] ∧ s.all isAlphaA

/-- `word.isdigit()`: nonempty and all digits. -/
def pyIsDigitStr (s : Str) : Bool := s ≠ [] ∧ s.all isDigitA

/-- `str.strip()` with no arguments (whitespace both ends). -/
def pyStrip (s : Str) : Str :=
  ((s.dropWhile pyIsSpace).reverse.dropWhile pyIsSpace).reverse

/-- `str.lstrip(chars)`. -/
def pyLstrip (chars : Str) (s : Str) : Str := s.dropWhile (fun c => c ∈ chars)

/-- `str.rstrip(chars)`. -/
def pyRstrip (chars : Str) (s : Str) : Str :=
  (s.reverse.dropWhile (fun c => c ∈ chars)).reverse

/-- `needle in haystack` (substring containment). -/
def containsSub (hay needle : Str) : Bool :=
  (List.range (hay.length + 1)).any fun i => needle.isPrefixOf (hay.drop i)

/-- `str.startswith(prefix)`. -/
def pyStartsWith (p s : Str) : Bool := p.isPrefixOf s

/-- `str.endswith(suffix)`. -/
def pyEndsWith (p s : Str) : Bool := p.isSuffixOf s

/-- First position at which `needle` occurs in `hay`, if any. -/
def findSub (hay needle : Str) : Option Nat :=
  (List.range (hay.length + 1)).find? fun i => needle.isPrefixOf (hay.drop i)

/-- `str.replace(old, new, 1)`: replace the first occurrence only. -/
def pyReplaceFirst (s old new : Str) : Str :=
  match findSub s old with
  | none => s
  | some i => s.take i ++ new ++ s.drop (i + old.length)

/-- The split loop of `str.split(sep)`, with enough fuel to consume the
whole string (each found separator occurrence advances by at least one
character when `sep` is nonempty). -/
def pySplitSepAux (sep : Str) : Nat → Str → List Str
  | 0, s => [s]
  | Nat.succ fuel, s =>
    match findSub s sep with
    | none => [s]
    | some i => s.take i :: pySplitSepAux sep fuel (s.drop (i + sep.length))

/-- `str.split(sep)` (separator split, empty pieces kept); an empty
separator is treated as "no occurrence" (the code only splits on `", "`,
`" "` and `"\n"`). -/
def pySplitSep (sep : Str) (s : Str) : List Str :=
  if sep = [] then [s] else pySplitSepAux sep s.length s

/-- `str.split(sep, maxsplit)`. -/
def pySplitSepMax (sep : Str) : Nat → Str → List Str
  | 0, s => [s]
  | Nat.succ m, s =>
    match findSub s sep with
    | none => [s]
    | some i => s.take i :: pySplitSepMax sep m (s.drop (i + sep.length))

/-- The loop of `str.split()` (whitespace split), with enough fuel to
consume the whole string. -/
def pySplitWsAux : Nat → Str → List Str
  | 0, _ => []
  | Nat.succ _, [] => []
  | Nat.succ fuel, c :: t =>
    if pyIsSpace c then pySplitWsAux fuel t
    else (c :: t.takeWhile (fun d => !(pyIsSpace d))) ::
      pySplitWsAux fuel (t.dropWhile (fun d => !(pyIsSpace d)))

/-- `str.split()` with no arguments: split on whitespace runs, dropping
empty pieces. -/
def pySplitWs (s : Str) : List Str := pySplitWsAux s.length s

/-- `sep.join(parts)`. -/
def pyJoin (sep : Str) : List Str → Str
  | [] => []
  | [x] => x
  | x :: y :: t => x ++ sep ++ pyJoin sep (y :: t)

/-- First `some` produced by `f` over a list (the shape of every
"try the patterns in order, first match wins" loop in the source). -/
def firstSome {α β : Type} (f : α → Option β) : List α → Option β
  | [] => none
  | a :: t =>
    match f a with
    | some b => some b
    | none => firstSome f t

/-! ### A small regular-expression engine

The Python code uses `re.search`, `re.match` and `re.sub` with a fixed
collection of patterns.  Each pattern is transcribed into the `RItem`
datatype below and executed by a backtracking matcher that follows
Python `re` semantics: leftmost match position wins, alternatives are
tried left to right, quantifiers are greedy with backtracking, `\b` is a
word boundary over `[A-Za-z0-9_]`, and `re.IGNORECASE` compares ASCII
case-insensitively (also inside character classes).  The matcher uses a
fuel argument that bounds the recursion depth; the fuel passed by
`reSearch`/`reSub` exceeds any possible depth for these patterns. -/

/-- One atom of a character class. -/
inductive CAtom where
  | lit (c : Char)              -- a literal character
  | range (lo hi : Char)        -- a character range such as `A-Z`
  | spaceC                      -- `\s`
  | digitC                      -- `\d`
  | anyC                        -- `.` (anything but a newline)
  deriving DecidableEq, Repr

/-- A character class: a possibly negated disjunction of atoms. -/
structure CharCls where
  neg : Bool
  atoms : List CAtom
  deriving DecidableEq, Repr

/-- Quantifier attached to a class or group. -/
inductive Quant where
  | one | star | plus | opt
  | rep (lo hi : Nat)           -- `{lo,hi}`
  deriving DecidableEq, Repr

/-- Items of a transcribed pattern. -/
inductive RItem where
  | ch (c : Char)                                          -- literal char
  | cls (cc : CharCls) (q : Quant)                         -- class w/ quantifier
  | bound                                                  -- `\b`
  | lineStart                                              -- `^`
  | lineEnd                                                -- `$`
  | grp (idx : Option Nat) (alts : List (List RItem)) (opt : Bool)
      -- `( .. | .. )` (capturing when `idx` is set), optionally with `?`
  | look (alts : List (List RItem))                        -- `(?= .. | .. )`
  deriving Repr

/-- Does an atom match a character? -/
def atomMatch (a : CAtom) (c : Char) : Bool :=
  match a with
  | .lit d => c = d
  | .range lo hi => lo ≤ c ∧ c ≤ hi
  | .spaceC => pyIsSpace c
  | .digitC => isDigitA c
  | .anyC => c ≠ '\n'

def clsMatchPos (cc : CharCls) (c : Char) : Bool := cc.atoms.any (atomMatch · c)

/-- Class membership, honouring `IGNORECASE` and negation. -/
def clsMatch (ci : Bool) (cc : CharCls) (c : Char) : Bool :=
  let m := clsMatchPos cc c ||
    (ci && (clsMatchPos cc (lowerA c) || clsMatchPos cc (upperA c)))
  if cc.neg then !m else m

/-- Literal character comparison, honouring `IGNORECASE`. -/
def chMatch (ci : Bool) (p c : Char) : Bool :=
  p = c || (ci && lowerA p = lowerA c)

/-- Is the character at `pos` (if any) a regex word character? -/
def isWordAt (input : Str) (pos : Nat) : Bool :=
  match input[pos]? with
  | some c => isAlnumA c || c = '_'
  | none => false

/-- `\b`: a word boundary at `pos`. -/
def atBoundary (input : Str) (pos : Nat) : Bool :=
  match pos with
  | 0 => isWordAt input 0
  | Nat.succ p => isWordAt input p != isWordAt input pos

/-- `$`: end of input, or just before a terminating newline. -/
def atLineEnd (input : Str) (pos : Nat) : Bool :=
  pos = input.length ∨ (pos + 1 = input.length ∧ input[pos]? = some '\n')

/-- Captured spans: `(group index, start, stop)`; index 0 is the whole
match. -/
abbrev Caps := List (Nat × Nat × Nat)

/-- The backtracking matcher.  `k` is the continuation receiving the
position and captures after `items`; ordered choice (`<|>`) realises
Python's alternative and quantifier preference. -/
def reRun (ci : Bool) (input : Str) :
    Nat → List RItem → Nat → Caps → (Nat → Caps → Option Caps) → Option Caps
  | 0, _, _, _, _ => none
  | Nat.succ fuel, items, pos, caps, k =>
    match items with
    | [] => k pos caps
    | it :: rest =>
      match it with
      | .ch c =>
        match input[pos]? with
        | some d => if chMatch ci c d then reRun ci input fuel rest (pos + 1) caps k else none
        | none => none
      | .cls cc q =>
        match q with
        | .one =>
          match input[pos]? with
          | some d => if clsMatch ci cc d then reRun ci input fuel rest (pos + 1) caps k else none
          | none => none
        | .star =>
          reRun ci input fuel (.cls cc .one :: .cls cc .star :: rest) pos caps k <|>
            reRun ci input fuel rest pos caps k
        | .plus => reRun ci input fuel (.cls cc .one :: .cls cc .star :: rest) pos caps k
        | .opt =>
          reRun ci input fuel (.cls cc .one :: rest) pos caps k <|>
            reRun ci input fuel rest pos caps k
        | .rep lo hi =>
          match lo, hi with
          | Nat.succ lo', Nat.succ hi' =>
            reRun ci input fuel (.cls cc .one :: .cls cc (.rep lo' hi') :: rest) pos caps k
          | 0, Nat.succ hi' =>
            reRun ci input fuel (.cls cc .one :: .cls cc (.rep 0 hi') :: rest) pos caps k <|>
              reRun ci input fuel rest pos caps k
          | _, 0 => reRun ci input fuel rest pos caps k
      | .bound => if atBoundary input pos then reRun ci input fuel rest pos caps k else none
      | .lineStart => if pos = 0 then reRun ci input fuel rest pos caps k else none
      | .lineEnd => if atLineEnd input pos then reRun ci input fuel rest pos caps k else none
      | .grp idx alts opt =>
        let after : Option Caps := if opt then reRun ci input fuel rest pos caps k else none
        alts.foldr
          (fun alt acc =>
            reRun ci input fuel alt pos caps
              (fun pos2 caps2 =>
                let caps3 := match idx with
                  | some i => (i, pos, pos2) :: caps2
                  | none => caps2
                reRun ci input fuel rest pos2 caps3 k) <|> acc)
          after
      | .look alts =>
        if alts.any fun alt =>
            (reRun ci input fuel alt pos caps (fun _ c => some c)).isSome
        then reRun ci input fuel rest pos caps k
        else none

/-- Fuel amply exceeding the matcher's recursion depth for the patterns
in this development. -/
def reFuel (input : Str) : Nat := 4 * input.length + 400

/-- A match result: overall span and captured groups. -/
structure RMatch where
  mstart : Nat
  mstop : Nat
  caps : Caps
  deriving Repr

/-- Try a full pattern at one position. -/
def reTryAt (ci : Bool) (pat : List RItem) (input : Str) (pos : Nat) : Option RMatch :=
  match reRun ci input (reFuel input) pat pos [] (fun p c => some ((0, pos, p) :: c)) with
  | some caps =>
    match caps.find? (fun t => t.1 = 0) with
    | some (_, s, e) => some ⟨s, e, caps⟩
    | none => none
  | none => none

/-- `re.search` starting at position `start`: first matching position. -/
def reSearchFrom (ci : Bool) (pat : List RItem) (input : Str) (start : Nat) : Option RMatch :=
  firstSome (fun i => reTryAt ci pat input (start + i))
    (List.range (input.length + 1 - start))

/-- `re.search(pat, input)`. -/
def reSearch (ci : Bool) (pat : List RItem) (input : Str) : Option RMatch :=
  reSearchFrom ci pat input 0

/-- `re.match(pat, input)` (anchored at position 0). -/
def reMatch (ci : Bool) (pat : List RItem) (input : Str) : Option RMatch :=
  reTryAt ci pat input 0

/-- The text of capture group `i` of a match (`m.group(i)`). -/
def groupStr (input : Str) (m : RMatch) (i : Nat) : Str :=
  match m.caps.find? (fun t => t.1 = i) with
  | some (_, s, e) => (input.drop s).take (e - s)
  | none => []

/-- `re.sub(pat, repl, input)` with a constant replacement (the
replacement may also be computed from the match, for
`lambda m: m.group(1)[0]`). -/
def reSubAux (ci : Bool) (pat : List RItem) (repl : Str → RMatch → Str) (input : Str) :
    Nat → Nat → Str
  | 0, start => input.drop start
  | Nat.succ fuel, start =>
    match reSearchFrom ci pat input start with
    | none => input.drop start
    | some m =>
      if m.mstop ≤ m.mstart then
        -- an empty match: emit replacement and advance one character
        ((input.drop start).take (m.mstart - start)) ++ repl input m ++
          (match input[m.mstart]? with
           | some c => c :: reSubAux ci pat repl input fuel (m.mstart + 1)
           | none => [])
      else
        ((input.drop start).take (m.mstart - start)) ++ repl input m ++
          reSubAux ci pat repl input fuel m.mstop

/-- `re.sub(pat, repl, input)` for a constant replacement string. -/
def reSub (ci : Bool) (pat : List RItem) (repl : Str) (input : Str) : Str :=
  reSubAux ci pat (fun _ _ => repl) input (input.length + 1) 0

/-- `re.sub` with replacement `lambda m: m.group(1)[0]` (used to shorten
direction words to their first letter). -/
def reSubGroup1Head (ci : Bool) (pat : List RItem) (input : Str) : Str :=
  reSubAux ci pat
    (fun inp m => (groupStr inp m 1).take 1) input (input.length + 1) 0

/-! #### Pattern-building helpers -/

/-- A literal string, character by character. -/
def lits (s : String) : List RItem := s.data.map RItem.ch

def clsOf (neg : Bool) (atoms : List CAtom) (q : Quant) : RItem :=
  .cls ⟨neg, atoms⟩ q

/-- `\s+` / `\s*` / `\s` -/
def wsP : RItem := clsOf false [.spaceC] .plus
def wsS : RItem := clsOf false [.spaceC] .star
/-- `\d{lo,hi}` -/
def digitsRep (lo hi : Nat) : RItem := clsOf false [.digitC] (.rep lo hi)
/-- `\d+` -/
def digitsP : RItem := clsOf false [.digitC] .plus
/-- `.*` -/
def dotStar : RItem := clsOf false [.anyC] .star
/-- `[^,]*` / `[^,]+` -/
def notCommaS : RItem := clsOf true [.lit ','] .star
def notCommaP : RItem := clsOf true [.lit ','] .plus
/-- a single optional literal character, e.g. `\.?` or `,?` -/
def optCh (c : Char) : RItem := clsOf false [.lit c] .opt
/-- `\b( w₁ | w₂ | .. )\b` as used by the occupation patterns. -/
def wordAlts (idx : Option Nat) (alts : List (List RItem)) : List RItem :=
  [.bound, .grp idx alts false, .bound]

/-! ### `config/settings.py`: the abbreviation table -/

/-- `ABBREVIATIONS` from `config/settings.py`, in insertion order (the
order in which `dict.items()` iterates). -/
def ABBREVIATIONS : List (Str × Str) :=
  [ (strL "acct", strL "accountant"), (strL "adv", strL "advertisement"),
    (strL "agt", strL "agent"), (strL "appr", strL "apprentice"),
    (strL "assn", strL "association"), (strL "asst", strL "assistant"),
    (strL "av", strL "avenue"), (strL "b", strL "boards"),
    (strL "bartndr", strL "bartender"), (strL "bet", strL "between"),
    (strL "bkbndr", strL "bookbinder"), (strL "bkpr", strL "bookkeeper"),
    (strL "blksmith", strL "blacksmith"), (strL "bldg", strL "building"),
    (strL "blk", strL "block"), (strL "boul", strL "boulevard"),
    (strL "cabmkr", strL "cabinet maker"), (strL "carp", strL "carpenter"),
    (strL "civ eng", strL "civil engineer"), (strL "clk", strL "clerk"),
    (strL "clnr", strL "cleaner"), (strL "collr", strL "collector"),
    (strL "commr", strL "commissioner"), (strL "comn", strL "commission"),
    (strL "comp", strL "compositor"), (strL "cond", strL "conductor"),
    (strL "conf", strL "confectioner"), (strL "contr", strL "contractor"),
    (strL "cor", strL "corner"), (strL "ct", strL "court"),
    (strL "dep", strL "deputy"), (strL "dept", strL "department"),
    (strL "dom", strL "domestic"), (strL "e", strL "east"),
    (strL "elev", strL "elevator"), (strL "eng", strL "engineer"),
    (strL "engr", strL "engraver"), (strL "exp", strL "express"),
    (strL "e s", strL "east side"), (strL "frt", strL "freight"),
    (strL "gen", strL "general"), (strL "ins", strL "insurance"),
    (strL "insptr", strL "inspector"), (strL "lab", strL "laborer"),
    (strL "mach", strL "machinist"), (strL "mech", strL "mechanic"),
    (strL "messr", strL "messenger"), (strL "mkr", strL "maker"),
    (strL "mnfr", strL "manufacturer"), (strL "mngr", strL "manager"),
    (strL "n", strL "north"), (strL "nr", strL "near"),
    (strL "n e", strL "northeast"), (strL "n s", strL "north side"),
    (strL "nw", strL "northwest"), (strL "opp", strL "opposite"),
    (strL "opr", strL "operator"), (strL "photogr", strL "photographer"),
    (strL "phys", strL "physician"), (strL "pk", strL "park"),
    (strL "pkr", strL "packer"), (strL "pl", strL "place"),
    (strL "P O", strL "Postoffice"), (strL "pres", strL "president"),
    (strL "prin", strL "principal"), (strL "prof", strL "professor"),
    (strL "propr", strL "proprietor"), (strL "pub", strL "publisher"),
    (strL "r", strL "residence"), (strL "rd", strL "road"),
    (strL "real est", strL "real estate"), (strL "repr", strL "repairer"),
    (strL "ret", strL "retail"), (strL "R M S", strL "railway mail service"),
    (strL "s", strL "south"), (strL "se", strL "southeast"),
    (strL "s s", strL "south side"), (strL "s w", strL "southwest"),
    (strL "slsmn", strL "salesman"), (strL "smstrs", strL "seamstress"),
    (strL "solr", strL "solicitor"), (strL "stenogr", strL "stenographer"),
    (strL "supt", strL "superintendent"), (strL "tchr", strL "teacher"),
    (strL "tel", strL "telephone"), (strL "tmstr", strL "teamster"),
    (strL "tndr", strL "tender"), (strL "trav", strL "traveling"),
    (strL "upholstr", strL "upholsterer"), (strL "vet surg", strL "veterinary surgeon"),
    (strL "w", strL "west"), (strL "Washn", strL "Washington"),
    (strL "whol", strL "wholesale"), (strL "wid", strL "widow"),
    (strL "w s", strL "west side") ]

/-- `ABBREVIATIONS.get(key, default)` (keys are stored lower-case or as
written; lookup is by exact equality, as in the Python dict). -/
def abbrevGet (key : Str) (dflt : Str) : Str :=
  match ABBREVIATIONS.find? (fun kv => kv.1 = key) with
  | some kv => kv.2
  | none => dflt

/-! ### `src/ocr/text_cleaner.py`: the `TextCleaner` class -/

/-- The configuration consumed via `self.config.get(..)` in
`TextCleaner`, with one field per key the class reads. -/
structure CleanerConfig where
  min_line_length : Nat
  remove_noise_characters : Bool
  noise_characters : Str
  allowed_leading_chars : Str
  allowed_ending_chars : Str
  merge_continuation_lines : Bool
  continuation_indicators : List Str
  common_continuation_words : List Str
  expand_abbreviations : Bool

/-- All `config.get` default values of `TextCleaner`. -/
def defaultConfig : CleanerConfig where
  min_line_length := 3
  remove_noise_characters := true
  noise_characters := strL "~_"
  allowed_leading_chars := strL "abcdefghijklmnopqrstuvwxyzABCDEFGHIJKLMNOPQRSTUVWXYZ0123456789&"
  allowed_ending_chars := strL "abcdefghijklmnopqrstuvwxyzABCDEFGHIJKLMNOPQRSTUVWXYZ0123456789&)"
  merge_continuation_lines := true
  continuation_indicators :=
    [strL "starts_with_digit", strL "starts_with_lowercase",
     strL "very_short_line", strL "common_continuation_words"]
  common_continuation_words :=
    [strL "Co", strL "same", strL "Co,", strL "Inc", strL "Ltd", strL "Corp"]
  expand_abbreviations := true

/-- `TextCleaner._remove_noise_characters`: delete every occurrence of a
configured noise character. -/
def removeNoiseCharacters (cfg : CleanerConfig) (line : Str) : Str :=
  line.filter (fun c => ¬ c ∈ cfg.noise_characters)

/-- The single-character members of the `quote_artifacts` set in
`TextCleaner._clean_front_of_line`.  (The Python set literal also
contains the two-character string `", "` via a stray triple-quote; a
one-character string can never equal it, so it never affects the
membership tests `line[0] in quote_artifacts` / `line[1] in ...`.) -/
def quoteArtifacts : List Char :=
  ['‘', '’', '“', '”', '*', apos, '"',
   '´', Char.ofNat 0x60, '°', '‛',
   '❛', '❜', '❝', '❞']

/-- `TextCleaner._clean_front_of_line`: strip non-allowed leading
characters, re-inserting a `'` when a quote artifact was seen in the
first two characters. -/
def cleanFrontOfLine (cfg : CleanerConfig) (line : Str) : Str :=
  if line = [] then line
  else
    let has_leading_quote : Bool :=
      match line with
      | c :: _ => if c ∈ quoteArtifacts then true else
        match line with
        | _ :: d :: _ => d ∈ quoteArtifacts
        | _ => false
      | [] => false
    let stripped := line.dropWhile (fun c => ¬ c ∈ cfg.allowed_leading_chars)
    match stripped with
    | c :: _ =>
      if has_leading_quote ∧ c ∈ cfg.allowed_leading_chars then apos :: stripped
      else stripped
    | [] => stripped

/-- `len(line) > 1 and line[-2] in allowed_ending` on the reversed
line: the (former) second-to-last character is an allowed ending. -/
def prevAllowed (allowed : Str) : Str → Bool
  | d :: _ => d ∈ allowed
  | [] => false

/-- The loop body of `TextCleaner._clean_end_of_line`, working on the
reversed line: pop trailing characters until an alphanumeric/`&`, or a
`.`/`,` preceded by an allowed ending character. -/
def cleanEndRev (allowed : Str) : Str → Str
  | [] => []
  | c :: rest =>
    if isAlnumA c ∨ c = '&' then c :: rest
    else if (c = '.' ∨ c = ',') ∧ prevAllowed allowed rest then c :: rest
    else cleanEndRev allowed rest

/-- `TextCleaner._clean_end_of_line`. -/
def cleanEndOfLine (cfg : CleanerConfig) (line : Str) : Str :=
  (cleanEndRev cfg.allowed_ending_chars line.reverse).reverse

/-- `TextCleaner._is_continuation_line`. -/
def isContinuationLine (cfg : CleanerConfig) (line : Str) : Bool :=
  if pyStrip line = [] then false
  else
    let first_char := (pyStrip line).headD ' '
    let first_word := ((pySplitWs (pyStrip line)).headD [])
    cfg.continuation_indicators.any fun ind =>
      if ind = strL "starts_with_digit" then isDigitA first_char
      else if ind = strL "starts_with_lowercase" then isLowerA first_char
      else if ind = strL "very_short_line" then (pyStrip line).length < 16
      else if ind = strL "common_continuation_words" then
        first_word ∈ cfg.common_continuation_words
      else false

/-- The trailing words after which the next line is merged
(`continuation_ends` in `_merge_continuation_lines`). -/
def continuationEnds : List Str :=
  [strL "and", strL "the", strL "of", strL "in", strL "for", strL "to",
   strL "on", strL "at", strL "with", strL "by", strL "as", strL "is",
   strL "are", strL ","]

/-- One step of `TextCleaner._merge_continuation_lines`: fold a line
into the accumulated list.  Returns `none` when the unguarded indexings
`line.strip()[0]` or `combined_lines[-1].strip().split()[-1]` would
raise `IndexError` in Python. -/
def mergeStep (cfg : CleanerConfig) (combined : List Str) (line : Str) :
    Option (List Str) :=
  match (pyStrip line).headD ' ', pyStrip line with
  | _, [] => none            -- `line.strip()[0]` raises
  | first_char, _ =>
    let prevInfo : Option (Str × Str) :=
      match combined.getLast? with
      | none => some ([], [])   -- `if combined_lines else ''`
      | some prev =>
        match (pySplitWs (pyStrip prev)).getLast? with
        | none => none           -- `.split()[-1]` raises
        | some w => some (prev, w)
    match prevInfo with
    | none => none
    | some (_, previous_line_last_word) =>
      if first_char.toNat ∈ [8216, 8217, 8220, 8221, 39, 34] ∧ combined ≠ [] then
        some (combined ++ [line])
      else if combined ≠ [] ∧ pyEndsWith (strL "-") (combined.getLastD []) then
        some (combined.dropLast ++ [(combined.getLastD []).dropLast ++ pyStrip line])
      else if combined ≠ [] ∧ isContinuationLine cfg line then
        some (combined.dropLast ++ [combined.getLastD [] ++ strL " " ++ pyStrip line])
      else if pyLower previous_line_last_word ∈ continuationEnds ∧ combined ≠ [] then
        some (combined.dropLast ++ [combined.getLastD [] ++ strL " " ++ pyStrip line])
      else if combined ≠ [] ∧ pyIsDigitStr previous_line_last_word then
        some (combined.dropLast ++ [combined.getLastD [] ++ strL " " ++ pyStrip line])
      else
        some (combined ++ [line])

/-- `TextCleaner._merge_continuation_lines`. -/
def mergeContinuationLines (cfg : CleanerConfig) (lines : List Str) :
    Option (List Str) :=
  if lines = [] then some lines
  else lines.foldlM (mergeStep cfg) []

/-- One substitution step of `TextCleaner._expand_abbreviations`:
replace whole-word occurrences of one abbreviation key
(case-insensitively). -/
def expandStep (l : Str) (kv : Str × Str) : Str :=
  reSub true ([.bound] ++ kv.1.map RItem.ch ++ [.bound]) kv.2 l

/-- `TextCleaner._expand_abbreviations` on one line: for each table
entry in order, replace whole-word occurrences (case-insensitively). -/
def expandAbbreviationsLine (line : Str) : Str :=
  ABBREVIATIONS.foldl expandStep line

/-- `TextCleaner._expand_abbreviations`. -/
def expandAbbreviations (lines : List Str) : List Str :=
  lines.map expandAbbreviationsLine

/-- The per-line cleaning phase of `TextCleaner.clean_text`: drop short
lines, optionally remove noise and trim both ends, keep the stripped
line when nonempty. -/
def cleanedLines (cfg : CleanerConfig) (lines : List Str) : List Str :=
  lines.foldr
    (fun line acc =>
      if pyStrip line = [] ∨ (pyStrip line).length < cfg.min_line_length then acc
      else
        let cleaned_line :=
          if cfg.remove_noise_characters then
            cleanEndOfLine cfg (cleanFrontOfLine cfg (removeNoiseCharacters cfg line))
          else line
        if pyStrip cleaned_line ≠ [] then pyStrip cleaned_line :: acc else acc)
    []

/-- `TextCleaner.clean_text`.  The result is `none` exactly when the
Python code would raise an uncaught `IndexError` inside
`_merge_continuation_lines`. -/
def cleanText (cfg : CleanerConfig) (text : Str) : Option Str :=
  if text = [] then some text
  else
    let lines := pySplitSep (strL "\n") text
    let cleaned := cleanedLines cfg lines
    match (if cfg.merge_continuation_lines then mergeContinuationLines cfg cleaned
           else some cleaned) with
    | none => none
    | some merged =>
      let expanded := if cfg.expand_abbreviations then expandAbbreviations merged else merged
      some (pyJoin (strL "\n") expanded)

/-! ### `src/parsing/text_analyzer.py`: the `TextAnalyzer` class -/

/-- `self.occupation_indicators` set in `TextAnalyzer.__init__`. -/
def occupationIndicators : List Str :=
  [strL "clk", strL "lab", strL "tmstr", strL "mach", strL "eng",
   strL "student", strL "moved", strL "died"]

/-- `TextAnalyzer.looks_like_occupation`. -/
def looksLikeOccupation (word : Str) : Bool :=
  pyLower word ∈ occupationIndicators

/-- `word[0].isupper()` guarded by non-emptiness. -/
def headIsUpper : Str → Bool
  | [] => false
  | c :: _ => isUpperA c

/-- The acceptance test shared by both branches of
`starts_with_surname`: non-empty, initial upper-case letter, not an
occupation indicator, longer than one character. -/
def surnameTokenOk (p : Str) : Bool :=
  p ≠ [] ∧ headIsUpper p ∧ ¬ looksLikeOccupation p ∧ p.length > 1

/-- `TextAnalyzer.starts_with_surname`. -/
def startsWithSurname (line : Str) : Bool :=
  let words := pySplitSep (strL ", ") line
  let full_name := words.headD []
  let name_split := pySplitWs full_name
  if name_split.length > 1 then surnameTokenOk (name_split.headD [])
  else if name_split.length = 1 ∧ containsSub line (strL "see also") then
    surnameTokenOk (name_split.headD [])
  else false

/-- The three `widow_patterns` of `TextAnalyzer.identify_widow_notation`:
`\(widow\s+([^)]+)\)`, `\bwid\s+([^,)]+)`, `\bwidow\s+([^,)]+)`. -/
def widowPatterns : List (List RItem) :=
  [ [.ch '('] ++ lits "widow" ++ [wsP, .grp (some 1) [[clsOf true [.lit ')'] .plus]] false, .ch ')'],
    [.bound] ++ lits "wid" ++ [wsP, .grp (some 1) [[clsOf true [.lit ',', .lit ')'] .plus]] false],
    [.bound] ++ lits "widow" ++ [wsP, .grp (some 1) [[clsOf true [.lit ',', .lit ')'] .plus]] false] ]

/-- `TextAnalyzer.identify_widow_notation`: first matching pattern wins;
the spouse name gets a `" (deceased)"` suffix unless already present. -/
def identifyWidow (text : Str) : Str :=
  match firstSome (fun p => reSearch true p text) widowPatterns with
  | none => []
  | some m =>
    let spouse_name := pyStrip (groupStr text m 1)
    if ¬ containsSub (pyLower spouse_name) (strL "deceased") then
      spouse_name ++ strL " (deceased)"
    else spouse_name

/-- The `residence_patterns` of
`TextAnalyzer.extract_residence_indicators`, in order:
`\br\s+([^,]+)`→resides, `\bb\s+([^,]+)`→boards, `\brms\s+([^,]+)`→rooms,
`\bh\s+([^,]+)`→house. -/
def residencePatterns : List (List RItem × Str) :=
  [ ([.bound, .ch 'r', wsP, .grp (some 1) [[notCommaP]] false], strL "resides"),
    ([.bound, .ch 'b', wsP, .grp (some 1) [[notCommaP]] false], strL "boards"),
    ([.bound] ++ lits "rms" ++ [wsP, .grp (some 1) [[notCommaP]] false], strL "rooms"),
    ([.bound, .ch 'h', wsP, .grp (some 1) [[notCommaP]] false], strL "house") ]

/-- `TextAnalyzer.extract_residence_indicators` (the caller passes the
lower-cased raw line; the patterns are applied without flags). -/
def extractResidenceIndicators (text : Str) : Str × Str :=
  let text_lower := pyLower text
  match firstSome
      (fun pi => (reSearch false pi.1 text_lower).map (fun m => (pi.2, m)))
      residencePatterns with
  | some (ind, m) => (ind, pyStrip (groupStr text_lower m 1))
  | none => ([], [])

/-- `TextAnalyzer.find_address_patterns`:
`\b(\d+[^,]*(?:av|st|blvd|rd)[^,]*)` over the lower-cased text. -/
def findAddressPatterns (text : Str) : Str :=
  let text_lower := pyLower text
  match reSearch false
      [.bound, .grp (some 1)
        [[digitsP, notCommaS,
          .grp none [lits "av", lits "st", lits "blvd", lits "rd"] false,
          notCommaS]] false] text_lower with
  | some m => pyStrip (groupStr text_lower m 1)
  | none => []

/-- `occupation_keywords` inside `TextAnalyzer.split_name_and_details`
(transcribed verbatim, including the duplicated entries). -/
def snadOccupationKeywords : List Str :=
  [strL "porter", strL "clerk", strL "laborer", strL "teamster", strL "machinist",
   strL "engineer", strL "salesman", strL "bookkeeper", strL "carpenter",
   strL "conductor", strL "waiter", strL "student", strL "seamstress", strL "nurse",
   strL "cook", strL "millwright", strL "cutter", strL "clk", strL "lab",
   strL "tmstr", strL "mach", strL "eng", strL "slsmn", strL "bkpr", strL "carp",
   strL "cond", strL "photographer", strL "domestic", strL "superintendent",
   strL "physician", strL "driver", strL "letter", strL "carrier", strL "hostler",
   strL "lawyer", strL "traveling", strL "agent", strL "manager", strL "mnegr",
   strL "mnfrs", strL "peddler", strL "apprentice", strL "grocer",
   strL "confectioner", strL "wireman", strL "foreman", strL "jeweler",
   strL "seamstress", strL "house", strL "mover", strL "stenographer",
   strL "salesman", strL "operator", strL "bartender", strL "car",
   strL "repairer", strL "with", strL "died", strL "moved", strL "widow"]

/-- `location_indicators` inside `TextAnalyzer.split_name_and_details`. -/
def snadLocationIndicators : List Str :=
  [strL "residence", strL "boards", strL "rms", strL "telephone", strL "same",
   strL "building", strL "bldg", strL "avenue", strL "street", strL "av",
   strL "st", strL "north", strL "south", strL "east", strL "west"]

/-- The token walk of `TextAnalyzer.split_name_and_details`: accumulate
first-name tokens until an occupation keyword, location indicator,
parenthesis, or non-name-shaped token is hit; the rest is the
remainder. -/
def snadLoop : List Str → List Str × List Str
  | [] => ([], [])
  | word :: rest =>
    let wkl := pyLower (pyRstrip (strL ",") word)
    if wkl ∈ snadOccupationKeywords then ([], word :: rest)
    else if wkl ∈ snadLocationIndicators then ([], word :: rest)
    else if '(' ∈ word then ([], word :: rest)
    else
      let word_clean := pyRstrip (strL ",") word
      let word_for_check := pyLstrip (aposS) word_clean
      if pyIsAlphaStr word_for_check ∧ headIsUpper word_for_check ∧
          word_for_check.length ≥ 1 then
        let clean_name :=
          if pyStartsWith (aposS) word_clean then pyLstrip (aposS) word_clean
          else word_clean
        let pr := snadLoop rest
        (clean_name :: pr.1, pr.2)
      else ([], word :: rest)

/-- `TextAnalyzer.split_name_and_details`. -/
def splitNameAndDetails (text : Str) : Str × Str :=
  let text := pyLstrip (strL ", ") text
  let words := pySplitWs text
  if words = [] then ([], text)
  else
    let pr := snadLoop words
    let remaining_words :=
      if pr.2 = [] ∧ words.length > pr.1.length then words.drop pr.1.length
      else pr.2
    (pyJoin (strL " ") pr.1, pyJoin (strL " ") remaining_words)

/-! ### The entry dictionary (`JSON_OUTPUT_FORMAT` plus the internal
fields added by `CityDirectoryParser._create_entry_template`) -/

/-- The nested `HomeAddress` dictionary. -/
structure HomeAddr where
  StreetNumber : Str
  StreetName : Str
  ApartmentOrUnit : Str
  ResidenceIndicator : Str
  deriving DecidableEq, Repr

/-- One parsed entry.  The first ten fields are the keys of
`JSON_OUTPUT_FORMAT`; the last three model the internal bookkeeping
keys `_line_number`, `_raw_text` and `_parsing_notes` that
`_create_entry_template` adds. -/
structure Entry where
  FirstName : Str
  LastName : Str
  Spouse : Str
  Occupation : Str
  CompanyName : Str
  HomeAddress : HomeAddr
  WorkAddress : Option Str
  Telephone : Option Str
  DirectoryName : Str
  PageNumber : Option Nat
  lineNumber : Nat
  rawText : Str
  parsingNotes : List Str
  deriving DecidableEq, Repr

/-! ### `src/parsing/entry_extractor.py`: the `EntryExtractor` class -/

/-- The `occupation_patterns` list of
`EntryExtractor._extract_occupation_and_get_remaining`, each pattern
`\b( .. | .. )\b`, transcribed in order. -/
def occupationPatterns : List (List RItem) :=
  [ wordAlts (some 1) [lits "clerk", lits "clk"],
    wordAlts (some 1) [lits "laborer", lits "lab"],
    wordAlts (some 1) [lits "teamster", lits "tmstr"],
    wordAlts (some 1) [lits "machinist", lits "mach"],
    wordAlts (some 1) [lits "engineer", lits "eng"],
    wordAlts (some 1) [lits "salesman", lits "slsmn"],
    wordAlts (some 1) [lits "bookkeeper", lits "bkpr"],
    wordAlts (some 1) [lits "carpenter", lits "carp"],
    wordAlts (some 1) [lits "conductor", lits "cond"],
    wordAlts (some 1) [lits "porter"],
    wordAlts (some 1) [lits "waiter"],
    wordAlts (some 1) [lits "student"],
    wordAlts (some 1) [lits "seamstress", lits "smstrs"],
    wordAlts (some 1) [lits "nurse"],
    wordAlts (some 1) [lits "cook"],
    wordAlts (some 1) [lits "millwright"],
    wordAlts (some 1) [lits "cutter"],
    wordAlts (some 1) [lits "photographer"],
    wordAlts (some 1) [lits "domestic"],
    wordAlts (some 1) [lits "superintendent"],
    wordAlts (some 1) [lits "physician"],
    wordAlts (some 1) [lits "driver"],
    wordAlts (some 1) [lits "letter" ++ [wsP] ++ lits "carrier"],
    wordAlts (some 1) [lits "hostler"],
    wordAlts (some 1) [lits "lawyer"],
    wordAlts (some 1) [lits "traveling" ++ [wsP] ++ lits "agent"],
    wordAlts (some 1) [lits "manager", lits "mnegr"],
    wordAlts (some 1)
      [lits "manufacturer" ++ [optCh apos] ++ lits "s" ++ [wsP] ++ lits "agent",
       lits "mnfrs" ++ [wsP] ++ lits "agent"],
    wordAlts (some 1) [lits "peddler"],
    wordAlts (some 1) [lits "apprentice"],
    wordAlts (some 1) [lits "grocer"],
    wordAlts (some 1) [lits "confectioner"],
    wordAlts (some 1) [lits "wireman"],
    wordAlts (some 1) [lits "foreman"],
    wordAlts (some 1) [lits "jeweler"],
    wordAlts (some 1) [lits "house" ++ [wsP] ++ lits "mover"],
    wordAlts (some 1) [lits "stenographer"],
    wordAlts (some 1) [lits "operator"],
    wordAlts (some 1) [lits "bartender"],
    wordAlts (some 1) [lits "car" ++ [wsP] ++ lits "repairer"],
    wordAlts (some 1) [lits "civil" ++ [wsP] ++ lits "engineer"],
    wordAlts (some 1) [lits "partner"],
    wordAlts (some 1) [lits "employee"],
    wordAlts (some 1) [lits "with"] ]

/-- `,\s*,` (double-comma repair). -/
def doubleCommaPat : List RItem := [.ch ',', wsS, .ch ',']

/-- `^\s*,\s*|\s*,\s*$` (leading/trailing comma removal). -/
def edgeCommaPat : List RItem :=
  [.grp none [[.lineStart, wsS, .ch ',', wsS], [wsS, .ch ',', wsS, .lineEnd]] false]

/-- `^[,\s]+|[,\s]+$`. -/
def edgeCommaSpacePat : List RItem :=
  [.grp none [[.lineStart, clsOf false [.lit ',', .spaceC] .plus],
              [clsOf false [.lit ',', .spaceC] .plus, .lineEnd]] false]

/-- `EntryExtractor._extract_occupation_and_get_remaining`: the loop
over `occupation_patterns`.  The first pattern that matches while
`entry["Occupation"]` is still empty sets the (abbreviation-expanded)
occupation and excises every occurrence of the pattern from the text. -/
def extractOccupationLoop (text : Str) (e : Entry) :
    List (List RItem) → Entry × Str
  | [] => (e, text)
  | p :: ps =>
    match reSearch true p text with
    | some m =>
      if e.Occupation = [] then
        let occupation := groupStr text m 1
        let expanded := abbrevGet (pyLower occupation) occupation
        let r1 := reSub true p [] text
        let r2 := reSub false doubleCommaPat (strL ",") r1
        let r3 := reSub false edgeCommaPat [] r2
        let r4 := pyStrip (reSub false [wsP] (strL " ") r3)
        ({ e with Occupation := expanded }, r4)
      else extractOccupationLoop text e ps
    | none => extractOccupationLoop text e ps

/-- `EntryExtractor._extract_occupation_and_get_remaining` proper. -/
def extractOccupationAndGetRemaining (e : Entry) (text : Str) : Entry × Str :=
  extractOccupationLoop text e occupationPatterns

/-- `[A-Za-z\s&,.-]*`, the body class of the general company patterns. -/
def companyBodyCls : RItem :=
  clsOf false [.range 'A' 'Z', .range 'a' 'z', .spaceC, .lit '&', .lit ',',
               .lit '.', .lit '-'] .star

/-- `[A-Z]` (one capital; `IGNORECASE` makes it match any letter). -/
def capA : RItem := clsOf false [.range 'A' 'Z'] .one
/-- `[a-z]+` -/
def lowersP : RItem := clsOf false [.range 'a' 'z'] .plus

/-- The `specific_companies` pattern list of
`EntryExtractor._extract_company_name`, transcribed in order. -/
def specificCompanies : List (List RItem) :=
  [ wordAlts (some 1)
      [lits "LymanEliel Drug Co", lits "Lyman" ++ [wsS] ++ lits "Eliel Drug Co"],
    wordAlts (some 1)
      [lits "Wells" ++ [optCh ',', wsS] ++ lits "Fargo" ++ [wsS, .ch '&', wsS] ++
        lits "Co" ++ [.grp none [[wsP] ++ lits "Express"] true]],
    wordAlts (some 1) [lits "S" ++ [wsS] ++ lits "E" ++ [wsS] ++ lits "Olson" ++ [wsS] ++ lits "Co"],
    wordAlts (some 1) [lits "Fire-Proof" ++ [optCh '.', wsS] ++ lits "Door" ++ [wsS] ++ lits "Co"],
    wordAlts (some 1) [lits "American" ++ [wsS] ++ lits "Standard" ++ [wsS] ++ lits "Food" ++ [wsS] ++ lits "Co"],
    wordAlts (some 1) [lits "Lillibridge-Bremner" ++ [wsS] ++ lits "Factory"],
    wordAlts (some 1) [lits "J" ++ [wsS] ++ lits "R" ++ [wsS] ++ lits "Wagner"],
    wordAlts (some 1) [lits "W" ++ [wsS] ++ lits "I" ++ [wsS] ++ lits "Gray" ++ [wsS, .ch '&', wsS] ++ lits "Co"],
    wordAlts (some 1) [lits "H" ++ [wsS] ++ lits "C" ++ [wsS] ++ lits "Akeley" ++ [wsS] ++ lits "Lbr" ++ [wsS] ++ lits "Co"],
    wordAlts (some 1) [lits "M" ++ [wsS] ++ lits "V" ++ [wsS] ++ lits "Tel" ++
      [.grp none [lits "ephone"] true, wsS] ++ lits "Co"],
    wordAlts (some 1) [lits "N" ++ [wsS] ++ lits "S" ++ [wsS] ++ lits "Clothing" ++ [wsS] ++ lits "Co"],
    wordAlts (some 1) [lits "M" ++ [wsS] ++ lits "S" ++ [wsS] ++ lits "Stabler"],
    wordAlts (some 1) [lits "U" ++ [wsP] ++ lits "of" ++ [wsP] ++ lits "M"],
    wordAlts (some 1) [lits "Dealers" ++ [optCh apos, wsS] ++ lits "Fuel" ++ [wsS] ++ lits "Co"],
    wordAlts (some 1) [lits "Coolidge" ++ [wsS] ++ lits "Fuel" ++ [wsS, .ch '&', wsS] ++ lits "Supply" ++ [wsS] ++ lits "Co"],
    wordAlts (some 1) [lits "Abel" ++ [wsS, .ch '&', wsS] ++ lits "Co"],
    wordAlts (some 1) [lits "Lina" ++ [wsS] ++ lits "Christianson"] ]

/-- The `general_patterns` list of
`EntryExtractor._extract_company_name`, transcribed in order. -/
def generalCompanyPatterns : List (List RItem) :=
  [ wordAlts (some 1) [[capA, companyBodyCls,
      .grp none [lits "Co", lits "Inc", lits "Ltd", lits "Corp", lits "Company",
                 lits "Corporation", lits "Association", lits "Assn"] false]],
    wordAlts (some 1) [[capA, companyBodyCls,
      .grp none [lits "Drug", lits "Medical", lits "Pharmacy"] false, wsP] ++ lits "Co"],
    wordAlts (some 1) [[capA, companyBodyCls,
      .grp none [lits "Express", lits "Transport", lits "Railway", lits "Ry"] false,
      .grp none [[wsP] ++ lits "Co"] true]],
    wordAlts (some 1) [[capA, companyBodyCls,
      .grp none [lits "Factory", lits "Manufacturing", lits "Mfg", lits "Lbr"] false,
      .grp none [[wsP] ++ lits "Co"] true]],
    wordAlts (some 1) [[capA, companyBodyCls] ++ lits "Food" ++ [wsP] ++ lits "Co"],
    wordAlts (some 1) [[capA, companyBodyCls,
      .grp none [lits "Door", lits "Building", lits "Construction"] false, wsP] ++ lits "Co"],
    wordAlts (some 1) [[capA, companyBodyCls,
      .grp none [lits "Supply", lits "Fuel", lits "Paint", lits "Clothing",
                 lits "Shoe", lits "Life"] false,
      .grp none [[wsP] ++ lits "Co", lits "Company"] true]],
    wordAlts (some 1) [[capA, wsP, capA, wsP, capA, lowersP]],
    wordAlts (some 1) [[capA, lowersP, wsP, capA, lowersP]] ]

/-- The stop-word list used to reject general company candidates. -/
def companyStopwords : List Str :=
  [strL "residence", strL "boards", strL "same", strL "telephone", strL "moved",
   strL "died", strL "north", strL "south", strL "east", strL "west"]

/-- The `general_patterns` loop of `_extract_company_name`: the first
match that passes validation sets the company name; an invalid match
falls through to the next pattern. -/
def extractCompanyGeneralLoop (e : Entry) (text_clean : Str) :
    List (List RItem) → Entry
  | [] => e
  | p :: ps =>
    match reSearch true p text_clean with
    | some m =>
      let n1 := pyStrip (groupStr text_clean m 1)
      let n2 := reSub false edgeCommaSpacePat [] n1
      let company_name := reSub false [wsP] (strL " ") n2
      if company_name.length > 2 ∧
          ¬ pyLower company_name ∈ companyStopwords ∧
          ¬ (reMatch false [.lineStart, digitsP] company_name).isSome ∧
          ¬ (reMatch false
              [.lineStart, clsOf false [.range 'a' 'z', .spaceC] .plus, .lineEnd]
              company_name).isSome then
        { e with CompanyName := company_name }
      else extractCompanyGeneralLoop e text_clean ps
    | none => extractCompanyGeneralLoop e text_clean ps

/-- `EntryExtractor._extract_company_name`. -/
def extractCompanyName (e : Entry) (text : Str) : Entry :=
  if text = [] ∨ pyStrip text = [] then e
  else
    -- clean up common OCR issues first
    let t1 := reSub false (lits "BEliel") (strL "Eliel") text
    let t2 := reSub true ([.bound] ++ lits "south" ++ [wsS] ++ lits "east" ++ [.bound]) (strL "S E") t1
    let t3 := reSub true ([.bound] ++ lits "north" ++ [wsS] ++ lits "east" ++ [.bound]) (strL "N E") t2
    let t4 := reSub true ([.bound] ++ lits "Ex" ++ [wsP] ++ lits "press" ++ [.bound]) (strL "Express") t3
    -- remove common non-company words at the beginning
    let text_clean := reSub true
      ([.lineStart, wsS,
        .grp (some 1) [lits "boards", lits "residence", lits "rms", lits "rooms",
                       lits "same", lits "telephone"] false,
        wsS, optCh ',', wsS]) [] t4
    match firstSome (fun p => reSearch true p text_clean) specificCompanies with
    | some m =>
      let n1 := pyStrip (groupStr text_clean m 1)
      let n2 := reSub false [wsP] (strL " ") n1
      let n3 := reSub false (lits "Ex" ++ [wsP] ++ lits "press") (strL "Express") n2
      let n4 := reSub false [clsOf false [.lit '.'] .plus] [] n3
      { e with CompanyName := n4 }
    | none => extractCompanyGeneralLoop e text_clean generalCompanyPatterns

/-- `EntryExtractor.parse_occupation_and_employer`. -/
def parseOccupationAndEmployer (e : Entry) (text : Str) : Entry :=
  if text = [] then e
  else
    let widow_spouse := identifyWidow text
    if widow_spouse ≠ [] then
      { e with Spouse := widow_spouse, Occupation := strL "widow",
               parsingNotes := e.parsingNotes ++ [strL "Identified as widow"] }
    else
      let er := extractOccupationAndGetRemaining e text
      let e1 := er.1
      let remaining_text := er.2
      let e2 := if remaining_text ≠ [] then extractCompanyName e1 remaining_text else e1
      let e3 := { e2 with parsingNotes :=
        e2.parsingNotes ++ [strL "Original text: " ++ text] }
      if remaining_text ≠ text then
        { e3 with parsingNotes :=
          e3.parsingNotes ++ [strL "After occupation removal: " ++ remaining_text] }
      else e3

/-- `EntryExtractor.parse_name_and_details`. -/
def parseNameAndDetails (e : Entry) (text : Str) : Entry :=
  if text = [] then e
  else
    let fr := splitNameAndDetails text
    let e1 := if fr.1 ≠ [] then { e with FirstName := fr.1 } else e
    if fr.2 ≠ [] then parseOccupationAndEmployer e1 fr.2 else e1

/-- The `residence_indicators` dictionary inside
`EntryExtractor.parse_address_components` (insertion order). -/
def pacResidenceIndicators : List (Str × Str) :=
  [(strL "boards", strL "b"), (strL "residence", strL "r"),
   (strL "rms", strL "rms"), (strL "rooms", strL "rms"),
   (strL "dom", strL "dom"), (strL "same", strL "same")]

/-- The `apt_patterns` of `parse_address_components`:
`(flat)\s*(\d+)`, `(apt|apartment)\s*(\d+)`, `(room|rm|rms)\s*(\d+)`,
`(\d+)\s*(apt|apartment|flat|room|rm)`. -/
def aptPatterns : List (List RItem) :=
  [ [.grp (some 1) [lits "flat"] false, wsS, .grp (some 2) [[digitsP]] false],
    [.grp (some 1) [lits "apt", lits "apartment"] false, wsS, .grp (some 2) [[digitsP]] false],
    [.grp (some 1) [lits "room", lits "rm", lits "rms"] false, wsS, .grp (some 2) [[digitsP]] false],
    [.grp (some 1) [[digitsP]] false, wsS,
      .grp (some 2) [lits "apt", lits "apartment", lits "flat", lits "room", lits "rm"] false] ]

/-- `\b<word>\b` for a dynamically built word (the `rf'\b{indicator}\b'`
substitutions). -/
def wordOf (w : Str) : List RItem := [.bound] ++ w.map RItem.ch ++ [.bound]

/-- `EntryExtractor.parse_address_components`. -/
def parseAddressComponents (address : Str) : HomeAddr :=
  if address = [] then ⟨[], [], [], []⟩
  else
    let address := pyStrip address
    -- explicit residence-indicator words
    let step1 : Str × Str :=
      match pacResidenceIndicators.find?
          (fun iv => containsSub (pyLower address) iv.1) with
      | some iv => (iv.2, pyStrip (reSub true (wordOf iv.1) [] address))
      | none => ([], address)
    let ri1 := step1.1
    let address := step1.2
    -- single-letter residence indicators (r, b, h)
    let singlePat : List RItem :=
      [.bound, .grp (some 1) [[clsOf false [.lit 'r', .lit 'b', .lit 'h'] .one]] false,
       .bound, .look [[clsOf false [.spaceC] .one], [.lineEnd]]]
    let step2 : Str × Str :=
      match reSearch false singlePat (pyLower address) with
      | some m =>
        if ri1 = [] then
          let g := groupStr (pyLower address) m 1
          (g, pyStrip (reSub true (wordOf g) [] address))
        else (ri1, address)
      | none => (ri1, address)
    let ri2 := step2.1
    let address := step2.2
    -- street number
    let step3 : Str × Str :=
      match reSearch false [.bound, .grp (some 1) [[digitsRep 3 4]] false, .bound] address with
      | some m =>
        let num := groupStr address m 1
        (num, pyStrip (pyReplaceFirst address num []))
      | none => ([], address)
    let streetNumber := step3.1
    let address := step3.2
    -- apartment/unit
    let step4 : Str × Str :=
      match firstSome (fun p => (reSearch true p address).map ((p, ·))) aptPatterns with
      | some (p, m) =>
        let g1 := groupStr address m 1
        let g2 := groupStr address m 2
        let apt := if pyIsDigitStr g1 then g2 ++ strL " " ++ g1 else g1 ++ strL " " ++ g2
        (apt, pyStrip (reSub true p [] address))
      | none => ([], address)
    let apartment := step4.1
    let address := step4.2
    -- clean up remaining address for the street name
    let address := pyStrip (reSub false [wsP] (strL " ") address)
    let address := reSub false edgeCommaSpacePat [] address
    let address := reSub true ([.bound, .grp (some 1) [lits "avenue", lits "av"] false, .bound, optCh '.']) (strL "av") address
    let address := reSub true ([.bound, .grp (some 1) [lits "street", lits "st"] false, .bound, optCh '.']) (strL "st") address
    let address := reSubGroup1Head true
      ([.bound, .grp (some 1) [lits "north", lits "south", lits "east", lits "west"] false, .bound]) address
    let address := reSub false [clsOf false [.lit '.'] .plus, .lineEnd] [] address
    let address := pyStrip (reSub false [wsP] (strL " ") address)
    ⟨streetNumber, address, apartment, ri2⟩

/-- The `residence_address_patterns` of
`EntryExtractor.extract_address_info`, in order. -/
def residenceAddressPatterns : List (List RItem) :=
  [ [.bound, .grp (some 1) [lits "boards", lits "residence"] false, wsP,
     .grp (some 2) [[digitsRep 3 4, notCommaS,
       .grp none [lits "avenue", lits "street", lits "av", lits "st",
                  lits "place", lits "blvd"] false, notCommaS]] false],
    [.bound, .grp (some 1) [lits "boards", lits "residence"] false, wsP,
     .grp (some 2) [[notCommaS, digitsRep 3 4, notCommaS]] false],
    [.bound, .grp (some 1) [lits "rms", lits "rooms"] false, wsP,
     .grp (some 2) [[digitsRep 3 4, notCommaS]] false] ]

/-- The loop over `residence_address_patterns`: the first matching
pattern yields `(group 1, group 2)`. -/
def residenceAddressSearch (text : Str) : Option (Str × Str) :=
  (firstSome (fun p => reSearch true p text) residenceAddressPatterns).map
    (fun m => (groupStr text m 1, groupStr text m 2))

/-- The standalone `address_patterns` of `extract_address_info`. -/
def standaloneAddressPatterns : List (List RItem) :=
  [ [.bound, .grp (some 1) [[digitsRep 3 4, wsP, notCommaS,
      .grp none [lits "avenue", lits "av", lits "street", lits "st",
                 lits "place", lits "blvd"] false, notCommaS]] false],
    [.bound, .grp (some 1) [[digitsRep 3 4, wsP, notCommaS,
      .grp none [lits "north", lits "south", lits "east", lits "west"] false,
      notCommaS]] false],
    [.bound, .grp (some 1) [[digitsRep 3 4, wsP,
      clsOf false [.range 'A' 'Z', .range 'a' 'z'] .one, notCommaS]] false] ]

/-- The `residence_indicators` dictionary inside
`extract_address_info` (no `same` entry here). -/
def eaiResidenceIndicators : List (Str × Str) :=
  [(strL "boards", strL "b"), (strL "residence", strL "r"),
   (strL "rms", strL "rms"), (strL "rooms", strL "rms"),
   (strL "dom", strL "dom")]

/-- `EntryExtractor.extract_address_info`. -/
def extractAddressInfo (e : Entry) (current_address : Str) : Entry :=
  let text := pyLower e.rawText
  let original_text := e.rawText
  -- residence indicators via the TextAnalyzer first
  let ia := extractResidenceIndicators text
  if ia.1 ≠ [] ∧ ia.2 ≠ [] then
    let comps := parseAddressComponents ia.2
    { e with HomeAddress := { comps with ResidenceIndicator := ia.1 } }
  else
    -- pattern 1: residence/boards + address
    match residenceAddressSearch original_text with
    | some g =>
      let ind0 := if containsSub (pyLower g.1) (strL "board") then strL "b" else strL "r"
      let ind := if containsSub (pyLower g.1) (strL "rms") then strL "rms" else ind0
      let address := pyStrip g.2
      let comps := parseAddressComponents address
      { e with HomeAddress := { comps with ResidenceIndicator := ind } }
    | none =>
      -- pattern 2: standalone addresses with numbers
      let e1 :=
        match firstSome (fun p => reSearch true p original_text)
            standaloneAddressPatterns with
        | some m =>
          let address := pyStrip (groupStr original_text m 1)
          { e with HomeAddress := parseAddressComponents address }
        | none => e
      -- explicit residence-indicator words in the lower-cased text
      let e2 :=
        match eaiResidenceIndicators.find? (fun iv => containsSub text iv.1) with
        | some iv =>
          if e1.HomeAddress.ResidenceIndicator = [] then
            { e1 with HomeAddress := { e1.HomeAddress with ResidenceIndicator := iv.2 } }
          else e1
        | none => e1
      -- fallback: TextAnalyzer address patterns, then the inherited address
      if e2.HomeAddress.StreetName = [] then
        let address := findAddressPatterns text
        if address ≠ [] then
          { e2 with HomeAddress := parseAddressComponents address }
        else if current_address ≠ [] then
          { e2 with HomeAddress := parseAddressComponents current_address,
                    parsingNotes := e2.parsingNotes ++
                      [strL "Inherited address from previous entry"] }
        else e2
      else e2

/-- `EntryExtractor.extract_work_address` (defined in the source but
never invoked by the per-line pipeline). -/
def extractWorkAddress (e : Entry) (text : Str) : Entry :=
  if containsSub (pyLower text) (strL "office") ∨ containsSub (pyLower text) (strL "bldg") then
    match (pySplitSep (strL ",") text).find?
        (fun part => [strL "office", strL "bldg", strL "room"].any
          (fun kw => containsSub (pyLower part) kw)) with
    | some part => { e with WorkAddress := some (pyStrip part) }
    | none => e
  else e

/-- `EntryExtractor.extract_telephone` (defined in the source but never
invoked by the per-line pipeline): `tel[:\s]+([^,\s]+)` over the
lower-cased text. -/
def extractTelephone (e : Entry) (text : Str) : Entry :=
  let tl := pyLower text
  match reSearch false
      (lits "tel" ++ [clsOf false [.lit ':', .spaceC] .plus,
        .grp (some 1) [[clsOf true [.lit ',', .spaceC] .plus]] false]) tl with
  | some m => { e with Telephone := some (groupStr tl m 1) }
  | none => e

/-! ### `src/parsing/json_parser.py`: the `CityDirectoryParser` class -/

/-- The mutable parser state (`self.current_surname`,
`self.current_address`), reset at the start of each file. -/
structure PState where
  current_surname : Str
  current_address : Str
  deriving DecidableEq, Repr

/-- The state right after `__init__` / at the top of
`parse_text_file`. -/
def freshState : PState := ⟨[], []⟩

/-- `CityDirectoryParser._create_entry_template` (a deep copy of
`JSON_OUTPUT_FORMAT` with `DirectoryName` set to
`f"Minneapolis {self.year}"` and the internal fields attached). -/
def createEntryTemplate (year : Str) (line_num : Nat) (line : Str) : Entry where
  FirstName := []
  LastName := []
  Spouse := []
  Occupation := []
  CompanyName := []
  HomeAddress := ⟨[], [], [], []⟩
  WorkAddress := none
  Telephone := none
  DirectoryName := strL "Minneapolis " ++ year
  PageNumber := none
  lineNumber := line_num
  rawText := line
  parsingNotes := []

/-- The `ad_patterns` blacklist of
`CityDirectoryParser._is_resident_line`. -/
def adPatterns : List Str :=
  [strL "furnished promptly", strL "delivered for", strL "telephone",
   strL "cents", strL "promptly", strL "trunks delivered",
   strL "messengers furnished"]

/-- The (substring-matched) residence indicator list of
`_is_resident_line`. -/
def irlResidenceIndicators : List Str :=
  [strL "r", strL "boards", strL "rms", strL "student", strL "wid"]

/-- The occupation keyword list of `_is_resident_line`. -/
def irlOccupationKeywords : List Str :=
  [strL "porter", strL "clerk", strL "laborer", strL "teamster",
   strL "machinist", strL "engineer", strL "salesman", strL "bookkeeper",
   strL "carpenter", strL "conductor", strL "waiter", strL "student",
   strL "seamstress", strL "nurse", strL "cook", strL "millwright",
   strL "cutter"]

/-- `\b\d{3,4}\b.*\b(avenue|street|av|st|place|blvd)\b`, the address
check of `_is_resident_line`. -/
def irlAddressPat : List RItem :=
  [.bound, digitsRep 3 4, .bound, dotStar, .bound,
   .grp (some 1) [lits "avenue", lits "street", lits "av", lits "st",
                  lits "place", lits "blvd"] false, .bound]

/-- `CityDirectoryParser._is_resident_line`. -/
def isResidentLine (line : Str) : Bool :=
  let line_lower := pyLower line
  if adPatterns.any (fun p => containsSub line_lower p) then false
  else
    let has_residence_indicator :=
      irlResidenceIndicators.any (fun i => containsSub line_lower i)
    let has_occupation :=
      irlOccupationKeywords.any (fun o => containsSub line_lower o)
    let has_name_structure :=
      ((',' ∈ line) ∧ ¬ pyStartsWith (strL "AQ!") line) ∨
        pyStartsWith (aposS) line ∨
        (line.take 10).any isUpperA
    let has_address := (reSearch false irlAddressPat line_lower).isSome
    if containsSub line_lower (strL "see also") then true
    else has_name_structure ∧ (has_residence_indicator ∨ has_occupation ∨ has_address)

/-- `CityDirectoryParser._parse_surname_line`: updates
`self.current_surname` and the entry. -/
def parseSurnameLine (st : PState) (e : Entry) (line : Str) : Entry × PState :=
  let parts := pySplitSepMax (strL " ") 2 line
  if parts.length ≥ 2 then
    let surname := pyRstrip (strL ",") (parts.headD [])
    let st' := { st with current_surname := surname }
    let e1 := { e with LastName := surname }
    let remainder :=
      if parts.length > 1 then pyJoin (strL " ") (parts.drop 1) else []
    (parseNameAndDetails e1 remainder, st')
  else
    ({ e with parsingNotes :=
        e.parsingNotes ++ [strL "Could not parse surname properly"] }, st)

/-- `CityDirectoryParser._parse_continuation_line`. -/
def parseContinuationLine (st : PState) (e : Entry) (line : Str) : Entry :=
  let e1 := { e with LastName := st.current_surname,
                     parsingNotes := e.parsingNotes ++
                       [strL "Inherited surname from previous entry"] }
  parseNameAndDetails e1 line

/-- `CityDirectoryParser.parse_line`: returns the produced entry (if
any) together with the updated parser state. -/
def parseLine (year : Str) (st : PState) (line : Str) (line_num : Nat) :
    Option Entry × PState :=
  if line = [] ∨ line.length < 3 then (none, st)
  else if ¬ isResidentLine line then (none, st)
  else
    let e := createEntryTemplate year line_num line
    let es :=
      if startsWithSurname line then parseSurnameLine st e line
      else (parseContinuationLine st e line, st)
    let e2 := extractAddressInfo es.1 es.2.current_address
    (some e2, es.2)

/-- The line loop of `CityDirectoryParser.parse_text_file` (starting
from a given state and line number, collecting the accepted entries in
order). -/
def parseLinesAux (year : Str) (st : PState) (line_num : Nat) :
    List Str → List Entry × PState
  | [] => ([], st)
  | line :: rest =>
    match parseLine year st line line_num with
    | (some e, st') =>
      let tail := parseLinesAux year st' (line_num + 1) rest
      (e :: tail.1, tail.2)
    | (none, st') => parseLinesAux year st' (line_num + 1) rest

/-- The body of `CityDirectoryParser.parse_text_file` applied to the
already-read file text: split into stripped non-blank lines, reset the
state, parse each line in order (page numbers come from the filename
and are not modelled; with no match the entries keep `PageNumber =
None`). -/
def parseTextLines (year : Str) (text : Str) : List Entry :=
  let lines := (pySplitSep (strL "\n") text).filterMap
    (fun l => if pyStrip l ≠ [] then some (pyStrip l) else none)
  (parseLinesAux year freshState 1 lines).1

/-- Entries produced from an explicit list of (already stripped)
logical lines, from a fresh state. -/
def parseLinesEntries (year : Str) (lines : List Str) : List Entry :=
  (parseLinesAux year freshState 1 lines).1

/-! #### The dictionary view of an entry and `_clean_entry` -/

/-- The values a Python entry dictionary can hold. -/
inductive PyVal where
  | s (v : Str)
  | noneV
  | num (n : Nat)
  | strs (vs : List Str)
  | addr (a : HomeAddr)
  deriving DecidableEq, Repr

/-- The entry as a Python dictionary: key/value pairs in insertion
order (`JSON_OUTPUT_FORMAT` first, then the internal fields added by
`_create_entry_template`). -/
def entryItems (e : Entry) : List (Str × PyVal) :=
  [ (strL "FirstName", .s e.FirstName),
    (strL "LastName", .s e.LastName),
    (strL "Spouse", .s e.Spouse),
    (strL "Occupation", .s e.Occupation),
    (strL "CompanyName", .s e.CompanyName),
    (strL "HomeAddress", .addr e.HomeAddress),
    (strL "WorkAddress", match e.WorkAddress with | some w => .s w | none => .noneV),
    (strL "Telephone", match e.Telephone with | some t => .s t | none => .noneV),
    (strL "DirectoryName", .s e.DirectoryName),
    (strL "PageNumber", match e.PageNumber with | some n => .num n | none => .noneV),
    (strL "_line_number", .num e.lineNumber),
    (strL "_raw_text", .s e.rawText),
    (strL "_parsing_notes", .strs e.parsingNotes) ]

/-- `CityDirectoryParser._clean_entry`: keep only the keys that do not
start with an underscore. -/
def cleanEntry (items : List (Str × PyVal)) : List (Str × PyVal) :=
  items.filter (fun kv => ¬ pyStartsWith (strL "_") kv.1)

/-- The keys of an entry dictionary. -/
def entryKeys (e : Entry) : List Str := (entryItems e).map Prod.fst

/-- The ten externally visible keys (`JSON_OUTPUT_FORMAT`). -/
def visibleKeys : List Str :=
  [strL "FirstName", strL "LastName", strL "Spouse", strL "Occupation",
   strL "CompanyName", strL "HomeAddress", strL "WorkAddress",
   strL "Telephone", strL "DirectoryName", strL "PageNumber"]

/-- The three internal bookkeeping keys. -/
def internalKeys : List Str :=
  [strL "_line_number", strL "_raw_text", strL "_parsing_notes"]

/-! ## Helper lemmas: fields untouched by the extraction cascade

Each extractor only writes its own fields; these lemmas record that
`LastName`, `Telephone` and `WorkAddress` pass through unchanged. -/

theorem extractCompanyGeneralLoop_pres (e : Entry) (tc : Str) (ps : List (List RItem)) :
    (extractCompanyGeneralLoop e tc ps).LastName = e.LastName ∧
    (extractCompanyGeneralLoop e tc ps).Telephone = e.Telephone ∧
    (extractCompanyGeneralLoop e tc ps).WorkAddress = e.WorkAddress := by
  induction ps with
  | nil => exact ⟨rfl, rfl, rfl⟩
  | cons p ps ih =>
    unfold extractCompanyGeneralLoop
    split
    · dsimp only
      split
      · exact ⟨rfl, rfl, rfl⟩
      · exact ih
    · exact ih

theorem extractCompanyName_pres (e : Entry) (t : Str) :
    (extractCompanyName e t).LastName = e.LastName ∧
    (extractCompanyName e t).Telephone = e.Telephone ∧
    (extractCompanyName e t).WorkAddress = e.WorkAddress := by
  unfold extractCompanyName
  split
  · exact ⟨rfl, rfl, rfl⟩
  · dsimp only
    split
    · exact ⟨rfl, rfl, rfl⟩
    · exact extractCompanyGeneralLoop_pres ..

theorem extractOccupationLoop_pres (t : Str) (e : Entry) (ps : List (List RItem)) :
    (extractOccupationLoop t e ps).1.LastName = e.LastName ∧
    (extractOccupationLoop t e ps).1.Telephone = e.Telephone ∧
    (extractOccupationLoop t e ps).1.WorkAddress = e.WorkAddress := by
  induction ps with
  | nil => exact ⟨rfl, rfl, rfl⟩
  | cons p ps ih =>
    unfold extractOccupationLoop
    split
    · split
      · exact ⟨rfl, rfl, rfl⟩
      · exact ih
    · exact ih

theorem extractOccupationAndGetRemaining_pres (e : Entry) (t : Str) :
    (extractOccupationAndGetRemaining e t).1.LastName = e.LastName ∧
    (extractOccupationAndGetRemaining e t).1.Telephone = e.Telephone ∧
    (extractOccupationAndGetRemaining e t).1.WorkAddress = e.WorkAddress :=
  extractOccupationLoop_pres t e occupationPatterns

theorem parseOccupationAndEmployer_pres (e : Entry) (t : Str) :
    (parseOccupationAndEmployer e t).LastName = e.LastName ∧
    (parseOccupationAndEmployer e t).Telephone = e.Telephone ∧
    (parseOccupationAndEmployer e t).WorkAddress = e.WorkAddress := by
  unfold parseOccupationAndEmployer
  split
  · exact ⟨rfl, rfl, rfl⟩
  · dsimp only
    split
    · exact ⟨rfl, rfl, rfl⟩
    · have h1 := extractOccupationAndGetRemaining_pres e t
      have h2 := extractCompanyName_pres
        (extractOccupationAndGetRemaining e t).1
        (extractOccupationAndGetRemaining e t).2
      split <;> split <;> simp_all

theorem parseNameAndDetails_pres (e : Entry) (t : Str) :
    (parseNameAndDetails e t).LastName = e.LastName ∧
    (parseNameAndDetails e t).Telephone = e.Telephone ∧
    (parseNameAndDetails e t).WorkAddress = e.WorkAddress := by
  unfold parseNameAndDetails
  split
  · exact ⟨rfl, rfl, rfl⟩
  · have h1 := parseOccupationAndEmployer_pres
      { e with FirstName := (splitNameAndDetails t).1 } (splitNameAndDetails t).2
    have h2 := parseOccupationAndEmployer_pres e (splitNameAndDetails t).2
    dsimp only
    split <;> split <;> simp_all

theorem extractAddressInfo_pres (e : Entry) (cur : Str) :
    (extractAddressInfo e cur).LastName = e.LastName ∧
    (extractAddressInfo e cur).Telephone = e.Telephone ∧
    (extractAddressInfo e cur).WorkAddress = e.WorkAddress := by
  unfold extractAddressInfo
  dsimp only
  split
  · exact ⟨rfl, rfl, rfl⟩
  · split
    · exact ⟨rfl, rfl, rfl⟩
    · repeat' split
      all_goals exact ⟨rfl, rfl, rfl⟩

/-! ## The claims -/

/-- The end-to-end scenario input line of claim C1. -/
def c1line : Str :=
  strL "Aadland, Peter D Salesman Lifetime Sls h 2103 Bryant av S apt 1"

/-- The record that `parse_line` actually produces for the C1 input
line (for directory year 1900, from a fresh parser state). -/
def c1Entry : Entry where
  FirstName := strL "Aadland Peter D"
  LastName := []
  Spouse := []
  Occupation := strL "Salesman"
  CompanyName := strL "Lifetime Sls"
  HomeAddress :=
    ⟨strL "2103", strL "bryant av s", strL "apt 1", strL "house"⟩
  WorkAddress := none
  Telephone := none
  DirectoryName := strL "Minneapolis 1900"
  PageNumber := none
  lineNumber := 1
  rawText := c1line
  parsingNotes :=
    [strL "Inherited surname from previous entry",
     strL "Original text: Salesman Lifetime Sls h 2103 Bryant av S apt 1",
     strL "After occupation removal: Lifetime Sls h 2103 Bryant av S apt 1"]

/-- `parse_line` on a non-empty accepted continuation line with a
non-empty name part, a non-empty details part, no widow marker, a
removed occupation and an extracted company: the result expressed
through the intermediate values of the pipeline.  This lets the
kernel evaluation of a concrete line be split into one lemma per
pipeline stage. -/
theorem parseLine_cont_of (y l : Str) (n : Nat) (st : PState)
    (nm d rem : Str) (e2 e3 e4 : Entry)
    (hlen : ¬ (l = [] ∨ l.length < 3))
    (hres : ¬ ¬ isResidentLine l = true)
    (hsws : ¬ startsWithSurname l = true)
    (hsplit : splitNameAndDetails l = (nm, d))
    (hnm : nm ≠ [])
    (hd : d ≠ [])
    (hwid : identifyWidow d = [])
    (he2 : { { createEntryTemplate y n l with
                LastName := st.current_surname,
                parsingNotes := (createEntryTemplate y n l).parsingNotes ++
                  [strL "Inherited surname from previous entry"] } with
             FirstName := nm } = e2)
    (hocc : extractOccupationAndGetRemaining e2 d = (e3, rem))
    (hrem : rem ≠ [])
    (hcomp : extractCompanyName e3 rem = e4)
    (hremd : rem ≠ d) :
    parseLine y st l n =
      (some (extractAddressInfo
        { e4 with parsingNotes :=
            e4.parsingNotes ++ [strL "Original text: " ++ d] ++
              [strL "After occupation removal: " ++ rem] }
        st.current_address), st) := by
  unfold parseLine
  rw [if_neg hlen, if_neg hres]
  dsimp only
  rw [if_neg hsws]
  dsimp only
  unfold parseContinuationLine
  dsimp only
  unfold parseNameAndDetails
  rw [if_neg (show ¬ (l = []) from fun h => hlen (Or.inl h))]
  dsimp only
  rw [hsplit]
  dsimp only
  rw [if_pos hnm, if_pos hd]
  unfold parseOccupationAndEmployer
  rw [if_neg hd]
  try dsimp only
  rw [hwid]
  rw [if_neg (show ¬ (([] : Str) ≠ []) from fun h => h rfl)]
  try dsimp only
  rw [he2, hocc]
  try dsimp only
  rw [if_pos hrem, hcomp]
  rw [if_pos hremd]

/-- The C1 entry as it stands when the occupation extractor runs (the
continuation template with the name part filled in). -/
def c1e2 : Entry where
  FirstName := strL "Aadland Peter D"
  LastName := []
  Spouse := []
  Occupation := []
  CompanyName := []
  HomeAddress := ⟨[], [], [], []⟩
  WorkAddress := none
  Telephone := none
  DirectoryName := strL "Minneapolis 1900"
  PageNumber := none
  lineNumber := 1
  rawText := c1line
  parsingNotes := [strL "Inherited surname from previous entry"]

/-- After occupation extraction. -/
def c1e3 : Entry := { c1e2 with Occupation := strL "Salesman" }

/-- After company extraction. -/
def c1e4 : Entry := { c1e3 with CompanyName := strL "Lifetime Sls" }

theorem resident_c1 : isResidentLine c1line = true := by
  decide

theorem occ_c1 :
    extractOccupationAndGetRemaining c1e2
      (strL "Salesman Lifetime Sls h 2103 Bryant av S apt 1") =
      (c1e3, strL "Lifetime Sls h 2103 Bryant av S apt 1") := by
  decide

theorem comp_c1 :
    extractCompanyName c1e3 (strL "Lifetime Sls h 2103 Bryant av S apt 1") =
      c1e4 := by
  decide

theorem addr_c1 :
    extractAddressInfo
      { c1e4 with parsingNotes :=
          c1e4.parsingNotes ++
            [strL "Original text: " ++
              strL "Salesman Lifetime Sls h 2103 Bryant av S apt 1"] ++
            [strL "After occupation removal: " ++
              strL "Lifetime Sls h 2103 Bryant av S apt 1"] }
      freshState.current_address = c1Entry := by
  decide

/-- The evaluation of `parse_line` on the C1 input line, assembled
from the per-stage lemmas and shared by the C1 theorems below. -/
theorem parseLine_c1_eval :
    parseLine (strL "1900") freshState c1line 1 = (some c1Entry, freshState) := by
  rw [parseLine_cont_of (strL "1900") c1line 1 freshState
        (strL "Aadland Peter D")
        (strL "Salesman Lifetime Sls h 2103 Bryant av S apt 1")
        (strL "Lifetime Sls h 2103 Bryant av S apt 1")
        c1e2 c1e3 c1e4
        (by decide) (fun h => h resident_c1) (by decide) (by decide)
        (by decide) (by decide) (by decide) (by decide) occ_c1 (by decide)
        comp_c1 (by decide)]
  rw [addr_c1]

/-- C1 (counterexample): the claimed end-to-end scenario is false on
the code: for the input line
`"Aadland, Peter D Salesman Lifetime Sls h 2103 Bryant av S apt 1"`
the produced record's LastName is not `"Aadland"` (because the surname
token is followed directly by the comma, `starts_with_surname` sees a
one-word first segment and rejects it, so the line is treated as a
continuation of an empty surname). -/
theorem c1_counterexample :
    ((parseLine (strL "1900") freshState c1line 1).1.map Entry.LastName) ≠
      some (strL "Aadland") := by
  rw [parseLine_c1_eval]
  decide

/-- C1 (amended): what `parse_line` actually produces for the C1 input
line with directory year 1900: FirstName `"Aadland Peter D"`, LastName
`""`, Occupation `"Salesman"`, CompanyName `"Lifetime Sls"`,
HomeAddress `{2103, "bryant av s", "apt 1", "house"}` (street name
lower-cased because the address is taken from the lower-cased line, and
the `h` indicator stored as the word `"house"`, not `"h"`), and
DirectoryName `"Minneapolis 1900"`. -/
theorem c1_end_to_end_actual :
    (parseLine (strL "1900") freshState c1line 1).1 = some c1Entry := by
  rw [parseLine_c1_eval]

/-- C3: whenever the widow detector fires on the remainder text,
`parse_occupation_and_employer` sets Spouse to the detected name (with
its `" (deceased)"` suffix), sets Occupation to the literal `"widow"`,
and leaves CompanyName untouched (occupation and company extraction are
skipped).  The widow check precedes occupation matching by
construction. -/
theorem c3_widow_precedence (e : Entry) (text : Str)
    (h : identifyWidow text ≠ []) :
    (parseOccupationAndEmployer e text).Spouse = identifyWidow text ∧
    (parseOccupationAndEmployer e text).Occupation = strL "widow" ∧
    (parseOccupationAndEmployer e text).CompanyName = e.CompanyName := by
  have htext : ¬ text = [] := by
    intro he
    exact h (by rw [he]; decide)
  unfold parseOccupationAndEmployer
  rw [if_neg htext]
  dsimp only
  rw [if_pos h]
  exact ⟨rfl, rfl, rfl⟩

/-- C3 (witness): on the concrete remainder `"wid John Smith"` the
detector yields `"John Smith (deceased)"`, and the resulting record has
Occupation `"widow"`, Spouse `"John Smith (deceased)"` and an empty
CompanyName. -/
theorem c3_widow_precedence_witness :
    identifyWidow (strL "wid John Smith") = strL "John Smith (deceased)" ∧
    (parseOccupationAndEmployer
        (createEntryTemplate (strL "1900") 1 (strL "wid John Smith"))
        (strL "wid John Smith")).Occupation = strL "widow" ∧
    (parseOccupationAndEmployer
        (createEntryTemplate (strL "1900") 1 (strL "wid John Smith"))
        (strL "wid John Smith")).Spouse = strL "John Smith (deceased)" ∧
    (parseOccupationAndEmployer
        (createEntryTemplate (strL "1900") 1 (strL "wid John Smith"))
        (strL "wid John Smith")).CompanyName = [] := by
  have h := c3_widow_precedence
    (createEntryTemplate (strL "1900") 1 (strL "wid John Smith"))
    (strL "wid John Smith") (by decide)
  refine ⟨by decide, h.2.1, ?_, ?_⟩
  · rw [h.1]; decide
  · rw [h.2.2]; rfl

/-- `_expand_abbreviations` on one line, split into three chunks of
the table so a concrete line can be evaluated stage by stage. -/
theorem expandLine_chunked (l : Str) :
    expandAbbreviationsLine l =
      (ABBREVIATIONS.drop 60).foldl expandStep
        (((ABBREVIATIONS.drop 30).take 30).foldl expandStep
          ((ABBREVIATIONS.take 30).foldl expandStep l)) := by
  unfold expandAbbreviationsLine
  conv_lhs => rw [← List.take_append_drop 30 ABBREVIATIONS]
  rw [List.foldl_append]
  conv_lhs => rw [← List.take_append_drop 30 (ABBREVIATIONS.drop 30)]
  rw [List.foldl_append, List.drop_drop]

theorem expand_ander_1 :
    (ABBREVIATIONS.take 30).foldl expandStep (strL "Ander son, John clerk") =
      strL "Ander son, John clerk" := by
  decide

theorem expand_ander_2 :
    ((ABBREVIATIONS.drop 30).take 30).foldl expandStep
      (strL "Ander son, John clerk") = strL "Ander son, John clerk" := by
  decide

theorem expand_ander_3 :
    (ABBREVIATIONS.drop 60).foldl expandStep (strL "Ander son, John clerk") =
      strL "Ander son, John clerk" := by
  decide

theorem expand_ander_line :
    expandAbbreviationsLine (strL "Ander son, John clerk") =
      strL "Ander son, John clerk" := by
  rw [expandLine_chunked, expand_ander_1, expand_ander_2, expand_ander_3]

theorem expand_anderson_1 :
    (ABBREVIATIONS.take 30).foldl expandStep (strL "Anderson, John clerk") =
      strL "Anderson, John clerk" := by
  decide

theorem expand_anderson_2 :
    ((ABBREVIATIONS.drop 30).take 30).foldl expandStep
      (strL "Anderson, John clerk") = strL "Anderson, John clerk" := by
  decide

theorem expand_anderson_3 :
    (ABBREVIATIONS.drop 60).foldl expandStep (strL "Anderson, John clerk") =
      strL "Anderson, John clerk" := by
  decide

theorem expand_anderson_line :
    expandAbbreviationsLine (strL "Anderson, John clerk") =
      strL "Anderson, John clerk" := by
  rw [expandLine_chunked, expand_anderson_1, expand_anderson_2,
      expand_anderson_3]

/-- `clean_text` expressed through its pipeline stages (for a
configuration that merges continuation lines and expands
abbreviations). -/
theorem cleanText_eq_of (cfg : CleanerConfig) (text : Str) (merged out : List Str)
    (hne : ¬ text = [])
    (hmf : cfg.merge_continuation_lines = true)
    (hef : cfg.expand_abbreviations = true)
    (hm : mergeContinuationLines cfg
        (cleanedLines cfg (pySplitSep (strL "\n") text)) = some merged)
    (he : expandAbbreviations merged = out) :
    cleanText cfg text = some (pyJoin (strL "\n") out) := by
  unfold cleanText
  rw [if_neg hne]
  dsimp only
  rw [if_pos hmf, hm]
  dsimp only
  rw [if_pos hef, he]

theorem c4_merge_default :
    mergeContinuationLines defaultConfig
      (cleanedLines defaultConfig
        (pySplitSep (strL "\n") (strL "Ander-\nson, John clerk"))) =
      some [strL "Ander son, John clerk"] := by
  decide

theorem c4_merge_nonoise :
    mergeContinuationLines { defaultConfig with remove_noise_characters := false }
      (cleanedLines { defaultConfig with remove_noise_characters := false }
        (pySplitSep (strL "\n") (strL "Ander-\nson, John clerk"))) =
      some [strL "Anderson, John clerk"] := by
  decide

/-- The evaluation of `clean_text` (default configuration) on the C4
input, assembled from the per-stage lemmas and shared by the C4
theorems. -/
theorem cleanText_ander_eval :
    cleanText defaultConfig (strL "Ander-\nson, John clerk") =
      some (strL "Ander son, John clerk") := by
  have h := cleanText_eq_of defaultConfig (strL "Ander-\nson, John clerk")
    [strL "Ander son, John clerk"] [strL "Ander son, John clerk"]
    (by decide) rfl rfl c4_merge_default
    (by unfold expandAbbreviations
        rw [List.map_cons, List.map_nil, expand_ander_line])
  rw [h]
  decide

/-- The evaluation of `clean_text` (noise removal disabled) on the C4
input. -/
theorem cleanText_anderson_eval :
    cleanText { defaultConfig with remove_noise_characters := false }
      (strL "Ander-\nson, John clerk") =
      some (strL "Anderson, John clerk") := by
  have h := cleanText_eq_of { defaultConfig with remove_noise_characters := false }
    (strL "Ander-\nson, John clerk")
    [strL "Anderson, John clerk"] [strL "Anderson, John clerk"]
    (by decide) rfl rfl c4_merge_nonoise
    (by unfold expandAbbreviations
        rw [List.map_cons, List.map_nil, expand_anderson_line])
  rw [h]
  decide

/-- C4 (counterexample): with the default configuration (cleaning
enabled), the two physical lines `"Ander-"` and `"son, John clerk"` do
NOT merge into `"Anderson, John clerk"`: the end-of-line cleanup strips
the trailing hyphen before merging. -/
theorem c4_counterexample :
    cleanText defaultConfig (strL "Ander-\nson, John clerk") ≠
      some (strL "Anderson, John clerk") := by
  rw [cleanText_ander_eval]
  decide

/-- C4 (amended): with default cleaning enabled the trailing hyphen of
`"Ander-"` is deleted by `_clean_end_of_line` before merging, so the
second line is merged by the lowercase-continuation rule with a space,
yielding the single logical line `"Ander son, John clerk"`.  The
hyphen-deleting no-space merge only happens when character cleaning is
disabled, in which case the result is exactly
`"Anderson, John clerk"`. -/
theorem c4_hyphen_merge_actual :
    cleanText defaultConfig (strL "Ander-\nson, John clerk") =
      some (strL "Ander son, John clerk") ∧
    cleanText { defaultConfig with remove_noise_characters := false }
        (strL "Ander-\nson, John clerk") =
      some (strL "Anderson, John clerk") := by
  constructor
  · exact cleanText_ander_eval
  · exact cleanText_anderson_eval

/-- C6 (counterexample): a line with the explicit indicator token
`rooms` followed by an address does not yield the claimed code
`"rms"`; the code only checks for the substring `"rms"` in the matched
token, so `rooms` falls back to `"r"`. -/
theorem c6_counterexample :
    (extractAddressInfo
        (createEntryTemplate (strL "1900") 1 (strL "rooms 210 Cly av"))
        []).HomeAddress.ResidenceIndicator = strL "r" ∧
    strL "r" ≠ strL "rms" := by
  constructor
  · decide
  · decide

/-- C6 (amended): when the single-letter indicator scan of the
TextAnalyzer finds nothing usable and one of the explicit
residence-indicator + address patterns matches with indicator token
`g1`, the stored code is `b` for `boards`, `r` for `residence`, `rms`
for `rms` — but `r` (not `rms`) for `rooms`, since the code only tests
the matched token for the substrings `board` and `rms`. -/
theorem c6_residence_indicator_codes (e : Entry) (cur : Str) (g1 g2 : Str)
    (h1 : ¬ ((extractResidenceIndicators (pyLower e.rawText)).1 ≠ [] ∧
             (extractResidenceIndicators (pyLower e.rawText)).2 ≠ []))
    (h2 : residenceAddressSearch e.rawText = some (g1, g2)) :
    (pyLower g1 = strL "boards" →
      (extractAddressInfo e cur).HomeAddress.ResidenceIndicator = strL "b") ∧
    (pyLower g1 = strL "residence" →
      (extractAddressInfo e cur).HomeAddress.ResidenceIndicator = strL "r") ∧
    (pyLower g1 = strL "rms" →
      (extractAddressInfo e cur).HomeAddress.ResidenceIndicator = strL "rms") ∧
    (pyLower g1 = strL "rooms" →
      (extractAddressInfo e cur).HomeAddress.ResidenceIndicator = strL "r") := by
  unfold extractAddressInfo
  dsimp only
  rw [if_neg h1, h2]
  dsimp only
  refine ⟨fun hg => ?_, fun hg => ?_, fun hg => ?_, fun hg => ?_⟩ <;>
    rw [hg] <;> decide

/-- C6 (witness): concrete instances of the amended claim — a
`boards` line stores `"b"` and an `rms` line (reached because the
single-letter scan returned an empty address) stores `"rms"`. -/
theorem c6_residence_indicator_codes_witness :
    (extractAddressInfo
        (createEntryTemplate (strL "1900") 1 (strL "boards 210 Cly av"))
        []).HomeAddress.ResidenceIndicator = strL "b" ∧
    (extractAddressInfo
        (createEntryTemplate (strL "1900") 1 (strL "r  , rms 210 Cly av"))
        []).HomeAddress.ResidenceIndicator = strL "rms" := by
  constructor
  · exact (c6_residence_indicator_codes
      (createEntryTemplate (strL "1900") 1 (strL "boards 210 Cly av")) []
      (strL "boards") (strL "210 Cly av")
      (by decide) (by decide)).1 (by decide)
  · exact (c6_residence_indicator_codes
      (createEntryTemplate (strL "1900") 1 (strL "r  , rms 210 Cly av")) []
      (strL "rms") (strL "210 Cly av")
      (by decide) (by decide)).2.2.1 (by decide)

/-- C7 (counterexample): the Line Normalizer is not idempotent.
Cleaning `"a~~b"` removes the noise characters and yields the logical
line `"ab"`, but cleaning `"ab"` again drops it entirely because it is
now shorter than the minimum line length — so clean ∘ clean ≠ clean. -/
theorem c7_counterexample :
    cleanText defaultConfig (strL "a~~b") = some (strL "ab") ∧
    cleanText defaultConfig (strL "ab") = some [] ∧
    strL "ab" ≠ ([] : Str) := by
  refine ⟨by decide, by decide, by decide⟩

theorem cleanEndRev_cons (allowed : Str) (c : Char) (rest : Str) :
    cleanEndRev allowed (c :: rest) =
      (if isAlnumA c ∨ c = '&' then c :: rest
       else if (c = '.' ∨ c = ',') ∧ prevAllowed allowed rest then c :: rest
       else cleanEndRev allowed rest) := by
  rw [cleanEndRev.eq_def]

theorem cleanEndRev_idem (allowed : Str) (r : Str) :
    cleanEndRev allowed (cleanEndRev allowed r) = cleanEndRev allowed r := by
  induction r with
  | nil => rfl
  | cons c rest ih =>
    rw [cleanEndRev_cons allowed c rest]
    by_cases h1 : isAlnumA c ∨ c = '&'
    · rw [if_pos h1, cleanEndRev_cons, if_pos h1]
    · by_cases h2 : (c = '.' ∨ c = ',') ∧ prevAllowed allowed rest = true
      · rw [if_neg h1, if_pos h2, cleanEndRev_cons, if_neg h1, if_pos h2]
      · rw [if_neg h1, if_neg h2]
        exact ih

/-- C7 (amended): full `clean_text` is not idempotent (see the
counterexample), but the per-line cleaning stages are: noise-character
removal and end-of-line cleanup are idempotent on every line and for
every configuration. -/
theorem c7_stage_idempotence (cfg : CleanerConfig) (l : Str) :
    removeNoiseCharacters cfg (removeNoiseCharacters cfg l) =
      removeNoiseCharacters cfg l ∧
    cleanEndOfLine cfg (cleanEndOfLine cfg l) = cleanEndOfLine cfg l := by
  constructor
  · unfold removeNoiseCharacters
    induction l with
    | nil => rfl
    | cons c rest ih =>
      by_cases h : c ∈ cfg.noise_characters
      · simp [List.filter, h, ih]
      · simp [List.filter, h, ih]
  · unfold cleanEndOfLine
    rw [List.reverse_reverse, cleanEndRev_idem]

theorem parseSurnameLine_state (st : PState) (e : Entry) (l : Str) :
    (parseSurnameLine st e l).2.current_address = st.current_address := by
  unfold parseSurnameLine
  dsimp only
  split
  · rfl
  · rfl

theorem parseSurnameLine_tel_work (st : PState) (e : Entry) (l : Str) :
    (parseSurnameLine st e l).1.Telephone = e.Telephone ∧
    (parseSurnameLine st e l).1.WorkAddress = e.WorkAddress := by
  unfold parseSurnameLine
  dsimp only
  split
  · exact ⟨(parseNameAndDetails_pres _ _).2.1, (parseNameAndDetails_pres _ _).2.2⟩
  · exact ⟨rfl, rfl⟩

theorem parseContinuationLine_fields (st : PState) (e : Entry) (l : Str) :
    (parseContinuationLine st e l).LastName = st.current_surname ∧
    (parseContinuationLine st e l).Telephone = e.Telephone ∧
    (parseContinuationLine st e l).WorkAddress = e.WorkAddress := by
  unfold parseContinuationLine
  dsimp only
  exact parseNameAndDetails_pres _ _

theorem parseLine_current_address (y : Str) (st : PState) (l : Str) (n : Nat) :
    (parseLine y st l n).2.current_address = st.current_address := by
  unfold parseLine
  split
  · rfl
  · split
    · rfl
    · dsimp only
      split
      · exact parseSurnameLine_state ..
      · rfl

theorem parseLine_state_cont (y : Str) (st : PState) (l : Str) (n : Nat)
    (h : startsWithSurname l = false) :
    (parseLine y st l n).2 = st := by
  unfold parseLine
  split
  · rfl
  · split
    · rfl
    · dsimp only
      rw [if_neg (by simp [h])]

theorem parseLine_cont_lastname (y : Str) (st : PState) (l : Str) (n : Nat) (e : Entry)
    (hs : startsWithSurname l = false)
    (he : (parseLine y st l n).1 = some e) :
    e.LastName = st.current_surname := by
  unfold parseLine at he
  split at he
  · simp at he
  · split at he
    · simp at he
    · dsimp only at he
      rw [if_neg (by simp [hs])] at he
      dsimp only at he
      injection he with he
      subst he
      rw [(extractAddressInfo_pres ..).1]
      exact (parseContinuationLine_fields ..).1

theorem parseLine_surname_lastname (y : Str) (st : PState) (l : Str) (n : Nat) (e : Entry)
    (hs : startsWithSurname l = true) (hcs : st.current_surname = [])
    (he : (parseLine y st l n).1 = some e) :
    e.LastName = (parseLine y st l n).2.current_surname := by
  unfold parseLine at he ⊢
  split at he
  · simp at he
  next h1 =>
    rw [if_neg h1]
    split at he
    · simp at he
    next h2 =>
      rw [if_neg h2]
      dsimp only at he ⊢
      split
      next h3 =>
        injection he with he
        subst he
        rw [(extractAddressInfo_pres ..).1]
        unfold parseSurnameLine
        dsimp only
        split
        · rw [(parseNameAndDetails_pres ..).1]
        · simp [hcs, createEntryTemplate]
      next h3 => exact absurd hs h3

theorem parseLinesAux_inherit (y : Str) (lines : List Str)
    (h : ∀ l ∈ lines, startsWithSurname l = false) :
    ∀ st n e, e ∈ (parseLinesAux y st n lines).1 → e.LastName = st.current_surname := by
  induction lines with
  | nil =>
    intro st n e he
    simp [parseLinesAux] at he
  | cons l rest ih =>
    intro st n e he
    have hl : startsWithSurname l = false := h l (by simp)
    have hrest : ∀ q ∈ rest, startsWithSurname q = false :=
      fun q hq => h q (by simp [hq])
    have hst : (parseLine y st l n).2 = st := parseLine_state_cont y st l n hl
    unfold parseLinesAux at he
    rcases hp : parseLine y st l n with ⟨o, st2⟩
    rw [hp] at he hst
    dsimp only at he hst
    cases o with
    | none =>
      dsimp only at he
      rw [← hst]
      exact ih hrest st2 (n + 1) e he
    | some e0 =>
      dsimp only at he
      rcases List.mem_cons.mp he with rfl | hmem
      · exact parseLine_cont_lastname y st l n e hl (by rw [hp])
      · rw [← hst]
        exact ih hrest st2 (n + 1) e hmem

/-- C2 (counterexample): the claim fails on a logical line whose only
whitespace is a tab.  `"Ab\tcr"` starts with the surname `Ab`
according to the analyzer (which splits on arbitrary whitespace), but
`_parse_surname_line` splits on the space character only, finds a
single part, and never assigns the surname — so the emitted record and
every later continuation record have an empty LastName instead of
`"Ab"`. -/
theorem c2_counterexample :
    startsWithSurname (strL "Ab\tcr") = true ∧
    pySplitWs ((pySplitSep (strL ", ") (strL "Ab\tcr")).headD []) =
      [strL "Ab", strL "cr"] ∧
    startsWithSurname (strL "'a r") = false ∧
    (parseLinesEntries (strL "1900")
        [strL "Ab\tcr", strL "'a r"]).map Entry.LastName = [[], []] ∧
    ([] : Str) ≠ strL "Ab" :=
  ⟨by decide, by decide, by decide, by decide, by decide⟩

/-- C2 (amended): in a sequence of lines where only the first starts
with a surname and the first line is accepted, every subsequently
accepted record's LastName equals the LastName assigned to the first
record (the parser state's current surname).  That LastName is the
first space-delimited token of the first line with trailing commas
stripped; it can be empty (rather than the analyzer's surname token)
when the first line contains no space character. -/
theorem c2_surname_inheritance (year l0 : Str) (rest : List Str)
    (h0 : startsWithSurname l0 = true)
    (hacc : (parseLine year freshState l0 1).1.isSome = true)
    (hrest : ∀ l ∈ rest, startsWithSurname l = false) :
    ∃ e0 es, parseLinesEntries year (l0 :: rest) = e0 :: es ∧
      ∀ e ∈ es, e.LastName = e0.LastName := by
  unfold parseLinesEntries parseLinesAux
  rcases hp : parseLine year freshState l0 1 with ⟨o, st2⟩
  rw [hp] at hacc
  cases o with
  | none => simp at hacc
  | some e0 =>
    dsimp only
    refine ⟨e0, (parseLinesAux year st2 2 rest).1, rfl, ?_⟩
    intro e he
    have h1 := parseLinesAux_inherit year rest hrest st2 2 e he
    have h2 : e0.LastName = st2.current_surname := by
      have h3 := parseLine_surname_lastname year freshState l0 1 e0 h0 rfl (by rw [hp])
      rw [hp] at h3
      exact h3
    rw [h1, h2]

/-- C2 (witness): the amended claim at a concrete two-line sequence:
`"Ha ra"` starts a record with LastName `"Ha"`, the continuation line
`"'b r"` inherits it. -/
theorem c2_surname_inheritance_witness :
    ∃ e0 es,
      parseLinesEntries (strL "1900")
        [strL "Ha ra", strL "'b r"] =
        e0 :: es ∧
      ∀ e ∈ es, e.LastName = e0.LastName :=
  c2_surname_inheritance (strL "1900") (strL "Ha ra")
    [strL "'b r"] (by decide) (by decide) (by decide)

/-- The record `parse_line` produces for the line `"Ab, 210 Cly av"`
(an address is found; the company extractor also picks up `"Cly av"`
as a side effect). -/
def c5Entry : Entry where
  FirstName := strL "Ab"
  LastName := []
  Spouse := []
  Occupation := []
  CompanyName := strL "Cly av"
  HomeAddress := ⟨strL "210", strL "Cly av", [], []⟩
  WorkAddress := none
  Telephone := none
  DirectoryName := strL "Minneapolis 1900"
  PageNumber := none
  lineNumber := 1
  rawText := strL "Ab, 210 Cly av"
  parsingNotes :=
    [strL "Inherited surname from previous entry",
     strL "Original text: 210 Cly av"]

/-- The single kernel evaluation of `parse_line` on the C5 line,
shared by the concrete parts of the C5 theorem. -/
theorem parseLine_c5_eval :
    parseLine (strL "1900") freshState (strL "Ab, 210 Cly av") 1 =
      (some c5Entry, freshState) := by
  decide

/-- C5 (code_bug evidence): the parser never writes the page-level
current-address state: after any `parse_line` call the state's
current_address equals what it was before — even when the line yields
a fresh address, as the concrete line `"Ab, 210 Cly av"` shows (its
record gets StreetName `"Cly av"`, yet the state is still the fresh
one with an empty current_address).  The spec's step "update
current-address state if a new address was found" has no counterpart
in the code, and the inheritance branch of `extract_address_info` is
unreachable from the pipeline because the state stays empty. -/
theorem c5_current_address_never_updated :
    (∀ (y : Str) (st : PState) (l : Str) (n : Nat),
      (parseLine y st l n).2.current_address = st.current_address) ∧
    ((parseLine (strL "1900") freshState (strL "Ab, 210 Cly av") 1).1.map
        Entry.HomeAddress).map HomeAddr.StreetName = some (strL "Cly av") ∧
    (parseLine (strL "1900") freshState (strL "Ab, 210 Cly av") 1).2 =
      freshState := by
  refine ⟨fun y st l n => parseLine_current_address y st l n, ?_, ?_⟩
  · rw [parseLine_c5_eval]
    rfl
  · rw [parseLine_c5_eval]

/-- C8 (counterexample): the entry dictionaries that `parse_line`
produces (and `parse_text_file` returns to its caller) still carry the
internal bookkeeping keys `_line_number`, `_raw_text` and
`_parsing_notes` — `_clean_entry` is only applied on the
`save_to_json` path, not to the returned list. -/
theorem c8_counterexample :
    ((parseLine (strL "1900") freshState (strL "Ab, rb") 1).1.map entryKeys) =
      some (visibleKeys ++ internalKeys) ∧
    strL "_raw_text" ∈ internalKeys :=
  ⟨by decide, by decide⟩

/-- C8 (amended): the serialized form is clean — `_clean_entry` keeps
exactly the ten externally visible keys of every entry, and no key it
keeps starts with an underscore; the in-memory entries, however, carry
the three internal keys after the visible ones. -/
theorem c8_clean_entry_visible (e : Entry) :
    (cleanEntry (entryItems e)).map Prod.fst = visibleKeys ∧
    entryKeys e = visibleKeys ++ internalKeys ∧
    (cleanEntry (entryItems e)).all
      (fun kv => ¬ pyStartsWith (strL "_") kv.1) = true :=
  ⟨rfl, rfl, rfl⟩

/-- C10: every record emitted by `parse_line` keeps the template
defaults `None` for Telephone and WorkAddress (the telephone and
work-address extractors are never invoked by the per-line pipeline),
and a line containing "telephone" (case-insensitively) is rejected by
the resident-line filter, producing no record at all. -/
theorem c10_telephone_work_defaults :
    (∀ (y : Str) (st : PState) (l : Str) (n : Nat) (e : Entry),
      (parseLine y st l n).1 = some e →
        e.Telephone = none ∧ e.WorkAddress = none) ∧
    (∀ (y : Str) (st : PState) (l : Str) (n : Nat),
      containsSub (pyLower l) (strL "telephone") = true →
        (parseLine y st l n).1 = none) := by
  constructor
  · intro y st l n e he
    unfold parseLine at he
    split at he
    · simp at he
    · split at he
      · simp at he
      · dsimp only at he
        split at he
        · injection he with he
          subst he
          constructor
          · rw [(extractAddressInfo_pres ..).2.1, (parseSurnameLine_tel_work ..).1]
            rfl
          · rw [(extractAddressInfo_pres ..).2.2, (parseSurnameLine_tel_work ..).2]
            rfl
        · injection he with he
          subst he
          constructor
          · rw [(extractAddressInfo_pres ..).2.1, (parseContinuationLine_fields ..).2.1]
            rfl
          · rw [(extractAddressInfo_pres ..).2.2, (parseContinuationLine_fields ..).2.2]
            rfl
  · intro y st l n h
    have hany : adPatterns.any (fun p => containsSub (pyLower l) p) = true :=
      List.any_eq_true.mpr ⟨strL "telephone", by decide, h⟩
    have hr : isResidentLine l = false := by
      unfold isResidentLine
      dsimp only
      rw [if_pos hany]
    unfold parseLine
    split
    · rfl
    · rw [if_pos (by simp [hr])]

/-- C10 (witness): a concrete accepted line keeps Telephone and
WorkAddress at `None`, and a concrete line containing "Telephone" is
rejected. -/
theorem c10_telephone_work_defaults_witness :
    (parseLine (strL "1900") freshState (strL "Ax, rb") 1).1.map
      Entry.Telephone = some none ∧
    (parseLine (strL "1900") freshState (strL "Ax, rb") 1).1.map
      Entry.WorkAddress = some none ∧
    (parseLine (strL "1900") freshState (strL "Bell, Telephone Co clerk") 1).1 =
      none := by
  have hsome : (parseLine (strL "1900") freshState (strL "Ax, rb") 1).1.isSome = true := by
    decide
  refine ⟨?_, ?_, c10_telephone_work_defaults.2 (strL "1900") freshState
    (strL "Bell, Telephone Co clerk") 1 (by decide)⟩
  all_goals
    rcases hx : (parseLine (strL "1900") freshState (strL "Ax, rb") 1).1 with _ | e
    · rw [hx] at hsome; simp at hsome
    · have hfields := c10_telephone_work_defaults.1 (strL "1900") freshState
        (strL "Ax, rb") 1 e hx
      simp [hfields.1, hfields.2]

/-- A line containing at least one non-whitespace character (the
invariant that protects the unguarded indexings in
`_merge_continuation_lines`). -/
def hasNonWs (x : Str) : Prop := ∃ c ∈ x, pyIsSpace c = false

theorem dropWhile_head_false {p : Char → Bool} {l : List Char} :
    ∀ {c t}, l.dropWhile p = c :: t → p c = false := by
  induction l with
  | nil => intro c t h; simp at h
  | cons a l ih =>
    intro c t h
    rw [List.dropWhile_cons] at h
    split at h
    · exact ih h
    · cases h
      simpa using ‹¬ _ = true›

theorem pyStrip_nil_all {l : Str} (h : pyStrip l = []) :
    ∀ c ∈ l, pyIsSpace c = true := by
  intro c hc
  unfold pyStrip at h
  rw [List.reverse_eq_nil_iff, List.dropWhile_eq_nil_iff] at h
  rw [← List.takeWhile_append_dropWhile (p := pyIsSpace) (l := l)] at hc
  rcases List.mem_append.mp hc with h1 | h2
  · exact List.mem_takeWhile_imp h1
  · exact h c (List.mem_reverse.mpr h2)

theorem hasNonWs_strip_ne_nil {l : Str} (h : hasNonWs l) : pyStrip l ≠ [] := by
  intro hnil
  obtain ⟨c, hc, hws⟩ := h
  rw [pyStrip_nil_all hnil c hc] at hws
  simp at hws

theorem strip_hasNonWs {l : Str} (h : pyStrip l ≠ []) : hasNonWs (pyStrip l) := by
  unfold pyStrip at h ⊢
  rcases hm : (l.dropWhile pyIsSpace).reverse.dropWhile pyIsSpace with _ | ⟨c, t⟩
  · exact absurd (by rw [hm]; rfl) h
  · refine ⟨c, ?_, dropWhile_head_false hm⟩
    exact List.mem_reverse.mpr (by simp)

theorem splitWsAux_ne_nil :
    ∀ (fuel : Nat) (s : Str), s.length ≤ fuel → hasNonWs s →
      pySplitWsAux fuel s ≠ [] := by
  intro fuel
  induction fuel with
  | zero =>
    intro s hlen hex
    obtain ⟨c, hc, _⟩ := hex
    cases s with
    | nil => simp at hc
    | cons a t => simp at hlen
  | succ fuel ih =>
    intro s hlen hex
    cases s with
    | nil =>
      obtain ⟨c, hc, _⟩ := hex
      simp at hc
    | cons a t =>
      unfold pySplitWsAux
      split
      · obtain ⟨c, hc, hcw⟩ := hex
        rcases List.mem_cons.mp hc with rfl | hct
        · rw [‹pyIsSpace c = true›] at hcw
          simp at hcw
        · exact ih t (by simpa using hlen) ⟨c, hct, hcw⟩
      · simp

theorem pySplitWs_ne_nil {s : Str} (h : hasNonWs s) : pySplitWs s ≠ [] :=
  splitWsAux_ne_nil s.length s le_rfl h

theorem hasNonWs_append (a : Str) {b : Str} (h : hasNonWs b) : hasNonWs (a ++ b) := by
  obtain ⟨c, hc, hw⟩ := h
  exact ⟨c, List.mem_append_right a hc, hw⟩

theorem allP_snoc {comb : List Str} {x : Str}
    (hc : ∀ y ∈ comb, hasNonWs y) (hx : hasNonWs x) :
    ∀ y ∈ comb ++ [x], hasNonWs y := by
  intro y hy
  rcases List.mem_append.mp hy with h | h
  · exact hc y h
  · rw [List.mem_singleton.mp h]
    exact hx

theorem allP_replaceLast {comb : List Str} {x : Str}
    (hc : ∀ y ∈ comb, hasNonWs y) (hx : hasNonWs x) :
    ∀ y ∈ comb.dropLast ++ [x], hasNonWs y := by
  intro y hy
  rcases List.mem_append.mp hy with h | h
  · exact hc y (List.dropLast_subset comb h)
  · rw [List.mem_singleton.mp h]
    exact hx

theorem getLast?_none_eq_nil {α : Type} : ∀ {l : List α}, l.getLast? = none → l = []
  | [], _ => rfl
  | [a], h => by simp at h
  | _ :: b :: t, h => by
    rw [List.getLast?_cons_cons] at h
    exact absurd (getLast?_none_eq_nil h) (by simp)

theorem getLast?_mem_self {α : Type} :
    ∀ {l : List α} {a : α}, l.getLast? = some a → a ∈ l
  | [], a, h => by simp at h
  | [x], a, h => by
    simp at h
    simp [h]
  | x :: b :: t, a, h => by
    rw [List.getLast?_cons_cons] at h
    exact List.mem_cons_of_mem x (getLast?_mem_self h)

theorem mergeStep_isSome (cfg : CleanerConfig) {combined : List Str} {line : Str}
    (hl : hasNonWs line) (hc : ∀ x ∈ combined, hasNonWs x) :
    (mergeStep cfg combined line).isSome = true := by
  have h1 : pyStrip line ≠ [] := hasNonWs_strip_ne_nil hl
  unfold mergeStep
  rcases hs : pyStrip line with _ | ⟨c, t⟩
  · exact absurd hs h1
  · dsimp only
    rcases hg : combined.getLast? with _ | prev
    · dsimp only
      repeat' split
      all_goals rfl
    · dsimp only
      have hsplit := pySplitWs_ne_nil
        (strip_hasNonWs (hasNonWs_strip_ne_nil (hc prev (getLast?_mem_self hg))))
      rcases hwl : (pySplitWs (pyStrip prev)).getLast? with _ | w
      · exact absurd (getLast?_none_eq_nil hwl) hsplit
      · dsimp only
        repeat' split
        all_goals rfl

theorem mergeStep_preserves (cfg : CleanerConfig) {combined : List Str}
    {line : Str} {outs : List Str}
    (hl : hasNonWs line) (hc : ∀ x ∈ combined, hasNonWs x)
    (hout : mergeStep cfg combined line = some outs) :
    ∀ x ∈ outs, hasNonWs x := by
  have h1 : pyStrip line ≠ [] := hasNonWs_strip_ne_nil hl
  have h1b : hasNonWs (pyStrip line) := strip_hasNonWs h1
  unfold mergeStep at hout
  repeat' split at hout
  all_goals try simp at hout
  all_goals repeat' split at hout
  all_goals try simp at hout
  all_goals rw [← hout]
  all_goals first
    | exact allP_snoc hc hl
    | exact allP_replaceLast hc (hasNonWs_append _ h1b)
    | exact allP_replaceLast hc (hasNonWs_append _ (hasNonWs_append _ h1b))

theorem mergeFold_isSome (cfg : CleanerConfig) :
    ∀ (lines acc : List Str),
      (∀ x ∈ lines, hasNonWs x) → (∀ x ∈ acc, hasNonWs x) →
      (List.foldlM (mergeStep cfg) acc lines).isSome = true := by
  intro lines
  induction lines with
  | nil => intro acc _ _; rfl
  | cons l rest ih =>
    intro acc hl hacc
    have h1 := mergeStep_isSome cfg (hl l (by simp)) hacc
    rcases hm : mergeStep cfg acc l with _ | mid
    · rw [hm] at h1
      simp at h1
    · have hP := mergeStep_preserves cfg (hl l (by simp)) hacc hm
      rw [List.foldlM_cons, hm]
      simpa using ih mid (fun x hx => hl x (by simp [hx])) hP

theorem cleanedLines_hasNonWs (cfg : CleanerConfig) (lines : List Str) :
    ∀ x ∈ cleanedLines cfg lines, hasNonWs x := by
  induction lines with
  | nil =>
    intro x hx
    simp [cleanedLines] at hx
  | cons l rest ih =>
    intro x hx
    have hx' : x ∈ (if pyStrip l = [] ∨ (pyStrip l).length < cfg.min_line_length
          then cleanedLines cfg rest
          else if pyStrip (if cfg.remove_noise_characters then
                    cleanEndOfLine cfg (cleanFrontOfLine cfg (removeNoiseCharacters cfg l))
                  else l) ≠ []
            then pyStrip (if cfg.remove_noise_characters then
                    cleanEndOfLine cfg (cleanFrontOfLine cfg (removeNoiseCharacters cfg l))
                  else l) :: cleanedLines cfg rest
            else cleanedLines cfg rest) := hx
    generalize hcl : (if cfg.remove_noise_characters then
        cleanEndOfLine cfg (cleanFrontOfLine cfg (removeNoiseCharacters cfg l))
      else l) = cl at hx'
    by_cases h1 : pyStrip l = [] ∨ (pyStrip l).length < cfg.min_line_length
    · rw [if_pos h1] at hx'
      exact ih x hx'
    · rw [if_neg h1] at hx'
      by_cases h2 : pyStrip cl ≠ []
      · rw [if_pos h2] at hx'
        rcases List.mem_cons.mp hx' with rfl | hmem
        · exact strip_hasNonWs h2
        · exact ih x hmem
      · rw [if_neg h2] at hx'
        exact ih x hx'

theorem mergeContinuationLines_isSome (cfg : CleanerConfig) (lines : List Str)
    (h : ∀ x ∈ lines, hasNonWs x) :
    (mergeContinuationLines cfg lines).isSome = true := by
  unfold mergeContinuationLines
  split
  · rfl
  · exact mergeFold_isSome cfg lines [] h (by simp)

/-- C9: the Line Normalizer is total — for every configuration and
every input text, `clean_text` completes without the unguarded
indexings in `_merge_continuation_lines` ever failing (every line
reaching the merge phase has a non-whitespace character), and empty or
all-noise input yields an empty line sequence. -/
theorem c9_clean_total :
    (∀ (cfg : CleanerConfig) (text : Str), (cleanText cfg text).isSome = true) ∧
    cleanText defaultConfig [] = some [] ∧
    cleanText defaultConfig (strL "~~~~") = some [] := by
  refine ⟨?_, by decide, by decide⟩
  intro cfg text
  unfold cleanText
  split
  · rfl
  · dsimp only
    split
    · next hm =>
        exfalso
        by_cases hflag : cfg.merge_continuation_lines
        · rw [if_pos hflag] at hm
          have h2 := mergeContinuationLines_isSome cfg
            (cleanedLines cfg (pySplitSep (strL "\n") text))
            (cleanedLines_hasNonWs cfg (pySplitSep (strL "\n") text))
          rw [hm] at h2
          simp at h2
        · rw [if_neg hflag] at hm
          simp at hm
    · rfl


end Dir1900
